import Mathlib

/-!
Verification of the ephemeral code-execution session manager of
`flask_project/TSserver.py` (sections 3 and 4 of the file: `start_session`,
`handle_send_input`, `handle_disconnect_session`, `scan_for_new_images`,
`handle_plot_file`, `cleanup_ephemeral_session`, and the `read_output` /
`read_sql_output` pump closures).

The embedding is a sequential small-step model.  A `ServerState` carries

* `table`  : the `ephemeral_sessions` dict, an association list from the
  socket id to a heap reference;
* `heap`   : the live Python session-dict objects.  The table entry can be
  popped while a pump closure still holds the object, so sessions are
  addressed through references, exactly as Python object identity works;
* `os`     : the parts of the operating system the server touches: the set of
  live child pids, the existing directories, the files with their contents,
  the lines written to child stdin, and fresh-name counters used to model
  `tempfile.mkdtemp`, process spawning and thread creation.

Events (`socketio.emit` calls scoped to the session's room) are returned as
lists in emission order.  External nondeterminism (does `pexpect.spawn`
raise?  what does the final drain `child.read()` return?  does the pump body
raise an I/O error?) enters as explicit parameters of the handler functions.
Byte-level payloads (PNG re-encoding, base64) are abstracted by injective
string encodings, since no claim observes the raw bytes.
-/

namespace LCE

/-! ### Association lists (Python dicts) -/

def alookup {α β : Type} [DecidableEq α] : List (α × β) → α → Option β
  | [], _ => none
  | (k, v) :: t, k' => if k = k' then some v else alookup t k'

/-- `dict.pop(k, None)`: remove the binding of `k`. -/
def aerase {α β : Type} [DecidableEq α] : List (α × β) → α → List (α × β)
  | [], _ => []
  | (k, v) :: t, k' => if k = k' then aerase t k' else (k, v) :: aerase t k'

/-- `dict[k] = v`: overwrite the binding of `k`. -/
def aset {α β : Type} [DecidableEq α] (l : List (α × β)) (k : α) (v : β) : List (α × β) :=
  (k, v) :: aerase l k

theorem alookup_aerase_ne {α β : Type} [DecidableEq α] (l : List (α × β)) (k k' : α)
    (h : k' ≠ k) : alookup (aerase l k) k' = alookup l k' := by
  induction l with
  | nil => rfl
  | cons kv t ih =>
    obtain ⟨k1, v1⟩ := kv
    by_cases hk : k1 = k
    · rw [show aerase ((k1, v1) :: t) k = aerase t k from if_pos hk, ih,
        show alookup ((k1, v1) :: t) k' = if k1 = k' then some v1 else alookup t k' from rfl,
        if_neg (by rw [hk]; exact fun hc => h hc.symm)]
    · rw [show aerase ((k1, v1) :: t) k = (k1, v1) :: aerase t k from if_neg hk]
      show (if k1 = k' then some v1 else alookup (aerase t k) k') = _
      rw [ih]
      rfl

theorem alookup_aerase_self {α β : Type} [DecidableEq α] (l : List (α × β)) (k : α) :
    alookup (aerase l k) k = none := by
  induction l with
  | nil => rfl
  | cons kv t ih =>
    obtain ⟨k1, v1⟩ := kv
    by_cases hk : k1 = k
    · simpa [aerase, if_pos hk] using ih
    · simp only [aerase, if_neg hk, alookup, ih]

theorem alookup_aset_self {α β : Type} [DecidableEq α] (l : List (α × β)) (k : α) (v : β) :
    alookup (aset l k v) k = some v := by
  simp [aset, alookup]

theorem alookup_aset_ne {α β : Type} [DecidableEq α] (l : List (α × β)) (k k' : α) (v : β)
    (h : k' ≠ k) : alookup (aset l k v) k' = alookup l k' := by
  simp only [aset, alookup, if_neg (Ne.symm h)]
  exact alookup_aerase_ne l k k' h

/-- `set.add`: insert without duplicating. -/
def sinsert {α : Type} [DecidableEq α] (a : α) (l : List α) : List α :=
  if a ∈ l then l else a :: l

theorem mem_sinsert_self {α : Type} [DecidableEq α] (a : α) (l : List α) :
    a ∈ sinsert a l := by
  unfold sinsert; split <;> simp [*]

theorem mem_sinsert_of_mem {α : Type} [DecidableEq α] {b : α} (a : α) {l : List α}
    (h : b ∈ l) : b ∈ sinsert a l := by
  unfold sinsert; split <;> simp [h]

/-! ### Data model -/

/-- A filesystem path, split into directory and basename (`os.path.join` /
`os.path.basename` never have to be re-parsed this way). -/
structure FPath where
  dir : String
  base : String
deriving DecidableEq

/-- `os.path.join(dir, base)` rendering used in error messages. -/
def pathStr (p : FPath) : String := p.dir ++ "/" ++ p.base

/-- Image dimensions; the only file content the artifact pipeline inspects. -/
structure Image where
  width : Nat
  height : Nat
deriving DecidableEq

/-- Contents of a file: either text (source code, database files) or an
image that `PIL.Image.open` can decode. -/
inductive FileContent where
  | text (s : String)
  | image (im : Image)
deriving DecidableEq

/-- The slice of the operating system the server manipulates:
live child pids, existing directories, files, lines written to child stdin
(`child.sendline`), and fresh-name counters modelling `tempfile.mkdtemp`,
`pexpect.spawn` and `threading.Thread`. -/
structure OS where
  alive : List Nat
  dirs : List String
  files : List (FPath × FileContent)
  inputs : List (Nat × String)
  nextTmp : Nat
  nextPid : Nat
  nextTid : Nat
deriving DecidableEq

/-- The per-session dict created by `start_session`
(`{"child": ..., "temp_dir": ..., "sql_temp_dir": ..., "temp_file": ...,
"thread": ..., "closing": ..., "sent_images": ...}`). -/
structure Session where
  child : Option Nat
  temp_dir : Option String
  sql_temp_dir : Option String
  temp_file : Option FPath
  thread : Option Nat
  closing : Bool
  sent_images : List FPath
deriving DecidableEq

/-- The fresh session dict `start_session` registers before spawning. -/
def freshSession : Session :=
  { child := none, temp_dir := none, sql_temp_dir := none, temp_file := none,
    thread := none, closing := false, sent_images := [] }

/-- The session dict after `cleanup_ephemeral_session` has cleared every
field (it sets `closing = True`, then nulls the handles and empties
`sent_images` before popping the table entry). -/
def clearedSession : Session :=
  { child := none, temp_dir := none, sql_temp_dir := none, temp_file := none,
    thread := none, closing := true, sent_images := [] }

/-- Whole-server state: `ephemeral_sessions` (socket id → object reference),
the heap of session objects (a popped table entry does not destroy the
object — the pump closure still holds it), and the OS. -/
structure ServerState where
  table : List (String × Nat)
  heap : List (Nat × Session)
  os : OS
  nextRef : Nat
deriving DecidableEq

/-- Read a session object through its reference (a Python attribute access
on an object that exists can not fail; the default is never reached from
states built by the handlers). -/
def heapGetD (h : List (Nat × Session)) (r : Nat) : Session :=
  (alookup h r).getD freshSession

/-- Events emitted to the session's own room, in emission order. -/
inductive Event where
  | output (data : String)
  | sessionStarted
  | sessionError (msg : String)
  | processEnded
  | plotImage (filename : String) (payload : String)
deriving DecidableEq

/-! ### Static language configuration -/

def LANG_EXTENSIONS : List (String × String) :=
  [("python", "py"), ("c", "c"), ("cpp", "cpp"), ("java", "java"),
   ("js", "js"), ("php", "php"), ("sql", "sql")]

def LANG_COMMANDS : List (String × String) :=
  [("python", "python3 -u user_code.py"),
   ("c", "gcc -fdiagnostics-color=never user_code.c -o main && ./main"),
   ("cpp", "g++ -fdiagnostics-color=never user_code.cpp -o main && ./main"),
   ("java", ""),
   ("js", "node user_code.js"),
   ("php", "php user_code.php"),
   ("sql", "")]

/-! ### `find_public_class_name`: the regex
`public\s+class\s+([A-Za-z_]\w*)` applied with `re.search` (leftmost
match), rendered as an explicit scanner over the character list. -/

def isSpaceChar (c : Char) : Bool :=
  c = ' ' || c = '\t' || c = '\n' || c = '\r' || c = Char.ofNat 11 || c = Char.ofNat 12

/-- Python `str.strip()` (ASCII whitespace subset). -/
def pyStrip (s : String) : String :=
  String.mk (((s.toList.dropWhile isSpaceChar).reverse.dropWhile isSpaceChar).reverse)

/-- ASCII lower-casing of one character. -/
def lowerChar (c : Char) : Char :=
  if 'A' ≤ c ∧ c ≤ 'Z' then Char.ofNat (c.toNat + 32) else c

/-- Python `str.lower()` (ASCII subset). -/
def pyLower (s : String) : String := String.mk (s.toList.map lowerChar)

def isWordChar (c : Char) : Bool := c.isAlphanum || c = '_'

def isIdentStart (c : Char) : Bool := c.isAlpha || c = '_'

def pubLit : List Char := ['p', 'u', 'b', 'l', 'i', 'c']

def classLit : List Char := ['c', 'l', 'a', 's', 's']

/-- Match a literal, returning the remaining input. -/
def takeLit : List Char → List Char → Option (List Char)
  | [], rest => some rest
  | _ :: _, [] => none
  | c :: cs, d :: ds => if c = d then takeLit cs ds else none

/-- Match `\s+` greedily. -/
def takeSpaces1 : List Char → Option (List Char)
  | [] => none
  | c :: rest => if isSpaceChar c then some (rest.dropWhile isSpaceChar) else none

/-- Match `[A-Za-z_]\w*` greedily, returning the captured name. -/
def takeIdent : List Char → Option String
  | [] => none
  | c :: rest =>
    if isIdentStart c then some (String.mk (c :: rest.takeWhile isWordChar)) else none

def matchPublicClassAt (l : List Char) : Option String :=
  (takeLit pubLit l).bind fun r1 =>
  (takeSpaces1 r1).bind fun r2 =>
  (takeLit classLit r2).bind fun r3 =>
  (takeSpaces1 r3).bind fun r4 =>
  takeIdent r4

def searchPublicClass : List Char → Option String
  | [] => none
  | c :: rest =>
    match matchPublicClassAt (c :: rest) with
    | some name => some name
    | none => searchPublicClass rest

def find_public_class_name (java_code : String) : Option String :=
  searchPublicClass java_code.toList

/-- Models `shlex.quote`: safe strings pass through, anything else is
wrapped in single quotes (escaping of embedded quotes is abstracted; the
command string is never interpreted by the model). -/
def shlexQuote (s : String) : String :=
  if s = "" then "''"
  else if s.toList.all (fun c => c.isAlphanum || c = '_' || c = '-' || c = '.' || c = '/') then s
  else "'" ++ s ++ "'"

/-! ### CleanupCoordinator: `cleanup_ephemeral_session` (TSserver.py 458-486) -/

/-- `child.terminate(force=True)`: the pid stops being alive. -/
def killProcess (os : OS) (pid : Nat) : OS :=
  { os with alive := os.alive.filter (fun q => decide (q ≠ pid)) }

/-- `shutil.rmtree(d, ignore_errors=True)`: the directory and the files
inside it disappear. -/
def rmtree (os : OS) (d : String) : OS :=
  { os with dirs := os.dirs.filter (fun x => decide (x ≠ d)),
            files := os.files.filter (fun pc => decide (pc.1.dir ≠ d)) }

/-- `if child and child.isalive(): child.terminate(force=True)`. -/
def childStep (x : OS) (c : Option Nat) : OS :=
  match c with
  | some pid => if pid ∈ x.alive then killProcess x pid else x
  | none => x

/-- `if tmp_dir and os.path.isdir(tmp_dir): shutil.rmtree(tmp_dir,
ignore_errors=True)` — note the Python truthiness test, so an empty
string would be skipped. -/
def dirStep (x : OS) (o : Option String) : OS :=
  match o with
  | some d => if d ≠ "" ∧ d ∈ x.dirs then rmtree x d else x
  | none => x

/-- The OS effect of teardown, in source order: kill a live child, remove
`temp_dir`, remove `sql_temp_dir`. -/
def cleanupOS (os : OS) (s : Session) : OS :=
  dirStep (dirStep (childStep os s.child) s.temp_dir) s.sql_temp_dir

/-- `cleanup_ephemeral_session(sid)`.  Returns with no side effect when no
session is registered or the session is already `closing`; otherwise flips
`closing`, force-kills a live child, removes both workspace directories,
clears every field of the session object and pops the table entry.
Emits nothing. -/
def cleanup_ephemeral_session (st : ServerState) (sid : String) : ServerState :=
  match alookup st.table sid with
  | none => st
  | some r =>
    let s := heapGetD st.heap r
    if s.closing then st
    else
      { table := aerase st.table sid, heap := aset st.heap r clearedSession,
        os := cleanupOS st.os s, nextRef := st.nextRef }

/-! ### Input injection: `handle_send_input` (TSserver.py 366-389) -/

/-- `send_input` handler: `data.get("line", "")` is written with
`child.sendline` (line terminator appended) when a live, non-closing
session with a live child exists; otherwise the notice + `process_ended`
fallbacks fire, invoking cleanup in all fallback cases except the
no-session one. -/
def handle_send_input (st : ServerState) (sid : String) (line : Option String) :
    ServerState × List Event :=
  match alookup st.table sid with
  | none => (st, [Event.output "[No active session]\n", Event.processEnded])
  | some r =>
    let s := heapGetD st.heap r
    if s.closing then
      (cleanup_ephemeral_session st sid,
       [Event.output "[Session closed]\n", Event.processEnded])
    else
      match s.child with
      | none =>
        (cleanup_ephemeral_session st sid,
         [Event.output "[No active session]\n", Event.processEnded])
      | some pid =>
        if pid ∈ st.os.alive then
          ({ st with os := { st.os with inputs := st.os.inputs ++ [(pid, (line.getD "") ++ "\n")] } },
           [])
        else
          (cleanup_ephemeral_session st sid,
           [Event.output "[No active session]\n", Event.processEnded])

/-! ### Disconnect: `handle_disconnect_session` (TSserver.py 391-398) -/

/-- `disconnect_session` handler: the kill notice is emitted only when a
not-yet-closing session exists, then cleanup runs, then exactly one
`process_ended` is emitted unconditionally. -/
def handle_disconnect_session (st : ServerState) (sid : String) :
    ServerState × List Event :=
  let notice : List Event :=
    match alookup st.table sid with
    | some r => if (heapGetD st.heap r).closing then [] else [Event.output "[Session killed by user]\n"]
    | none => []
  (cleanup_ephemeral_session st sid, notice ++ [Event.processEnded])

/-! ### ArtifactScanner: `scan_for_new_images` / `handle_plot_file`
(TSserver.py 404-456) -/

def MAX_DIM : Nat := 800

/-- Distance on naturals, used to express the rounding error bounds of the
thumbnail computation. -/
def adist (a b : Nat) : Nat := max a b - min a b

/-- The new width chosen by Pillow `Image.thumbnail((800, 800))` in the
`x / y >= aspect` branch (portrait or square): `round_aspect(y * aspect)`,
the integer nearest to `800 * w / h` (ties to the floor, Python `min`
picks the first argument), clamped to at least 1.  Pillow computes with
floats; the model uses exact arithmetic, comparing candidates by the same
key `abs(aspect - n / y)` cross-multiplied. -/
def pil_round_aspect_x (w h : Nat) : Nat :=
  let fl := MAX_DIM * w / h
  let ce := if MAX_DIM * w % h = 0 then fl else fl + 1
  let pick := if adist (MAX_DIM * w) (fl * h) ≤ adist (MAX_DIM * w) (ce * h) then fl else ce
  max pick 1

/-- The new height chosen by Pillow in the `x / y < aspect` branch
(landscape): `round_aspect(x / aspect)` with key
`0 if n == 0 else abs(aspect - x / n)`; a zero floor has key 0 and wins,
then the clamp lifts it to 1. -/
def pil_round_aspect_y (w h : Nat) : Nat :=
  let fl := MAX_DIM * h / w
  let ce := if MAX_DIM * h % w = 0 then fl else fl + 1
  let pick :=
    if fl = 0 then fl
    else if adist (w * fl) (MAX_DIM * h) * ce ≤ adist (w * ce) (MAX_DIM * h) * fl then fl else ce
  max pick 1

/-- Exact-arithmetic model of Pillow `Image.thumbnail((800, 800))`:
no-op when the image already fits the box, otherwise keep the longest side
at 800 and round the other to preserve the aspect ratio. -/
def pil_thumbnail (im : Image) : Image :=
  if MAX_DIM ≥ im.width ∧ MAX_DIM ≥ im.height then im
  else if im.height ≥ im.width then ⟨pil_round_aspect_x im.width im.height, MAX_DIM⟩
  else ⟨MAX_DIM, pil_round_aspect_y im.width im.height⟩

/-- The resize step of `handle_plot_file`:
`if im.width > max_dim or im.height > max_dim: im.thumbnail((800, 800))`. -/
def plotResize (im : Image) : Image :=
  if im.width > MAX_DIM ∨ im.height > MAX_DIM then pil_thumbnail im else im

/-- Abstract stand-in for saving as PNG and base64-encoding
(the raw bytes are not observable in the model). -/
def encodePNG (im : Image) : String :=
  "png:" ++ toString im.width ++ "x" ++ toString im.height

/-- Abstract stand-in for base64-encoding the raw on-disk bytes
(the `PIL_ENABLED = False` path). -/
def encodeRaw : FileContent → String
  | FileContent.image im => "raw:" ++ toString im.width ++ "x" ++ toString im.height
  | FileContent.text s => "rawtext:" ++ s

/-- Record a path in `session_obj["sent_images"]` (a `set.add`). -/
def markSent (st : ServerState) (r : Nat) (p : FPath) : ServerState :=
  let s := heapGetD st.heap r
  { st with heap := aset st.heap r { s with sent_images := sinsert p s.sent_images } }

/-- `handle_plot_file(sid, filepath)`.  Missing session: silent return.
Missing file: a `Plot file not found` error, nothing marked sent.  With
PIL available: opening a non-image raises, caught as a
`Could not handle plot file` error, nothing marked sent; an image is
resize-bounded, re-encoded and emitted, and only then marked sent.
Without PIL the raw bytes are forwarded and the path marked sent. -/
def handle_plot_file (st : ServerState) (pil : Bool) (sid : String) (p : FPath) :
    ServerState × List Event :=
  match alookup st.table sid with
  | none => (st, [])
  | some r =>
    match alookup st.os.files p with
    | none => (st, [Event.sessionError ("Plot file not found: " ++ pathStr p)])
    | some content =>
      if pil then
        match content with
        | FileContent.image im =>
          (markSent st r p, [Event.plotImage p.base (encodePNG (plotResize im))])
        | FileContent.text _ =>
          (st, [Event.sessionError
            ("Could not handle plot file " ++ pathStr p ++ ": cannot identify image file")])
      else
        (markSent st r p, [Event.plotImage p.base (encodeRaw content)])

def extPng : List Char := ['.', 'p', 'n', 'g']

def extJpg : List Char := ['.', 'j', 'p', 'g']

def extJpeg : List Char := ['.', 'j', 'p', 'e', 'g']

/-- `glob` pattern `*.<ext>`: the basename must end with the extension and,
as for any glob pattern not itself starting with a dot, must not be a
hidden file. -/
def globMatch (b : String) (ext : List Char) : Bool :=
  (match b.toList with
   | [] => false
   | c :: _ => decide (c ≠ '.')) && decide (ext <:+ b.toList)

/-- `glob.glob(os.path.join(tmp_dir, pat))` for one pattern: the existing
files of that directory whose basename matches. -/
def globPat (os : OS) (d : String) (ext : List Char) : List FPath :=
  (os.files.map Prod.fst).filter (fun p => decide (p.dir = d) && globMatch p.base ext)

/-- The three patterns scanned, in source order. -/
def globImages (os : OS) (d : String) : List FPath :=
  globPat os d extPng ++ globPat os d extJpg ++ globPat os d extJpeg

/-- The scan loop body: for each globbed path not already in
`sent_images` (re-read from the live session object each iteration, since
`handle_plot_file` mutates it), call `handle_plot_file`. -/
def scanPaths (pil : Bool) (sid : String) (r : Nat) :
    ServerState → List FPath → ServerState × List Event
  | st, [] => (st, [])
  | st, p :: rest =>
    if p ∈ (heapGetD st.heap r).sent_images then
      scanPaths pil sid r st rest
    else
      let he := handle_plot_file st pil sid p
      let tail := scanPaths pil sid r he.1 rest
      (tail.1, he.2 ++ tail.2)

/-- The body of the scan once the session object is in hand: silent
return when `temp_dir` is unset (sql sessions), falsy (empty string), or
no longer a directory; otherwise scan the glob results. -/
def scanDir (st : ServerState) (pil : Bool) (sid : String) (r : Nat) :
    ServerState × List Event :=
  match (heapGetD st.heap r).temp_dir with
  | none => (st, [])
  | some d =>
    if d = "" then (st, [])
    else if d ∈ st.os.dirs then scanPaths pil sid r st (globImages st.os d)
    else (st, [])

/-- `scan_for_new_images(sid)`: silent return when no session is
registered, otherwise `scanDir`. -/
def scan_for_new_images (st : ServerState) (pil : Bool) (sid : String) :
    ServerState × List Event :=
  match alookup st.table sid with
  | none => (st, [])
  | some r => scanDir st pil sid r

/-! ### OutputPump tail: the `read_output` / `read_sql_output` closures
(TSserver.py 271-298 and 331-358; the two bodies are identical).  The
polling loop itself only forwards chunks; everything the claims are about
happens after the loop exits, which is modelled here.  `LoopResult`
records how the `try` block ended: `ok leftover` when it completed (with
the final drain `child.read()` result, only consulted when the session is
not closing — an exception inside that bare `try` leaves it empty), and
`failed msg` when an exception escaped to the outer handler, which emits a
`session_error`. -/

inductive LoopResult where
  | ok (leftover : String)
  | failed (msg : String)
deriving DecidableEq

/-- The tail of the pump: drain (unless closing), error report if the
body raised, then — unless closing — one artifact scan and one
`process_ended`, and finally, on every path, `cleanup_ephemeral_session`. -/
def read_output_finish (st : ServerState) (pil : Bool) (sid : String) (r : Nat)
    (res : LoopResult) : ServerState × List Event :=
  let s := heapGetD st.heap r
  let ev1 : List Event :=
    match res with
    | LoopResult.ok leftover =>
      if s.closing then [] else if leftover = "" then [] else [Event.output leftover]
    | LoopResult.failed msg => [Event.sessionError msg]
  if s.closing then
    (cleanup_ephemeral_session st sid, ev1)
  else
    let sc := scan_for_new_images st pil sid
    (cleanup_ephemeral_session sc.1 sid, ev1 ++ sc.2 ++ [Event.processEnded])

/-! ### ProcessLauncher: `start_session` (TSserver.py 212-364) -/

/-- The socketio payload: `data.get("code", "")`, `data.get("language",
"python")`. -/
structure StartData where
  code : Option String
  language : Option String
deriving DecidableEq

/-- Directory of `TSserver.py`, where `prepopulate.sql` is looked up. -/
def SERVER_DIR : String := "flask_project"

/-- Source filename and run command for a non-sql language; for `java`,
`find_public_class_name` picks the filename stem and run symbol, falling
back to `user_code.java` / `user_code`. -/
def nonsqlFileAndCmd (language code : String) : String × String :=
  let extension := (alookup LANG_EXTENSIONS language).getD ""
  let code_file_name := "user_code." ++ extension
  let runCmd := (alookup LANG_COMMANDS language).getD ""
  if language = "java" then
    match find_public_class_name code with
    | some cname =>
      (cname ++ ".java",
       "javac " ++ shlexQuote (cname ++ ".java") ++ " && java " ++ shlexQuote cname)
    | none => ("user_code.java", "javac user_code.java && java user_code")
  else (code_file_name, runCmd)

/-- The fresh workspace name `tempfile.mkdtemp(prefix="user_session_")`
produces for the current state (the random suffix is modelled by the
fresh-name counter). -/
def nonsqlTmpDir (st : ServerState) : String :=
  "user_session_" ++ toString st.os.nextTmp

/-- Non-sql branch, up to (and excluding) the `pexpect.spawn` call: make
the workspace, record it in `temp_dir`, and write the source file.  This
is exactly the server state at the moment `pexpect.spawn` is invoked. -/
def start_nonsql_spawn_state (st2 : ServerState) (r : Nat) (code language : String) :
    ServerState :=
  let d := nonsqlTmpDir st2
  let os1 := { st2.os with dirs := d :: st2.os.dirs, nextTmp := st2.os.nextTmp + 1 }
  let s := heapGetD st2.heap r
  let stA := { st2 with os := os1, heap := aset st2.heap r { s with temp_dir := some d } }
  let fc := nonsqlFileAndCmd language code
  { stA with os := { stA.os with
      files := aset stA.os.files ⟨d, fc.1⟩ (FileContent.text code) } }

/-- Non-sql branch from the registered session onward.  On spawn failure
(`except Exception`): emit the error, `shutil.rmtree(tmp_dir)`, pop the
table entry.  On success: record `child` and `temp_file`, create and start
the pump thread, emit `session_started`. -/
def start_nonsql (st2 : ServerState) (r : Nat) (sid code language : String)
    (spawnErr : Option String) : ServerState × List Event :=
  let d := nonsqlTmpDir st2
  let stB := start_nonsql_spawn_state st2 r code language
  match spawnErr with
  | some msg =>
    let stC := { stB with os := rmtree stB.os d }
    ({ stC with table := aerase stC.table sid }, [Event.sessionError msg])
  | none =>
    let pid := stB.os.nextPid
    let tid := stB.os.nextTid
    let osS := { stB.os with
        alive := pid :: stB.os.alive,
        nextPid := pid + 1,
        nextTid := tid + 1 }
    let s := heapGetD stB.heap r
    let fc := nonsqlFileAndCmd language code
    ({ stB with
        os := osS,
        heap := aset stB.heap r
          { s with child := some pid, temp_file := some ⟨d, fc.1⟩, thread := some tid } },
     [Event.sessionStarted])

/-- The fresh workspace name for the sql branch
(`tempfile.mkdtemp(prefix="sql_session_")`). -/
def sqlTmpDir (st : ServerState) : String :=
  "sql_session_" ++ toString st.os.nextTmp

/-- Sql branch up to (and excluding) `pexpect.spawn`: make the workspace,
record it in `sql_temp_dir`, run the prepopulation shell command when
`flask_project/prepopulate.sql` exists (materialising `ephemeral.db`; the
database bytes are abstracted), and write `user_code.sql`. -/
def start_sql_spawn_state (st2 : ServerState) (r : Nat) (code : String) : ServerState :=
  let d := sqlTmpDir st2
  let os1 := { st2.os with dirs := d :: st2.os.dirs, nextTmp := st2.os.nextTmp + 1 }
  let s := heapGetD st2.heap r
  let stA := { st2 with os := os1, heap := aset st2.heap r { s with sql_temp_dir := some d } }
  let stB :=
    if (alookup stA.os.files ⟨SERVER_DIR, "prepopulate.sql"⟩).isSome then
      { stA with os := { stA.os with
          files := aset stA.os.files ⟨d, "ephemeral.db"⟩ (FileContent.text "db") } }
    else stA
  { stB with os := { stB.os with
      files := aset stB.os.files ⟨d, "user_code.sql"⟩ (FileContent.text code) } }

/-- Sql branch from the registered session onward.  On spawn failure: emit
the error and pop the table entry — the source does NOT delete the sql
workspace here (contrast `start_nonsql`).  On success: record `child` and
`temp_file`, start the pump thread, emit `session_started`. -/
def start_sql (st2 : ServerState) (r : Nat) (sid code : String)
    (spawnErr : Option String) : ServerState × List Event :=
  let d := sqlTmpDir st2
  let stB := start_sql_spawn_state st2 r code
  match spawnErr with
  | some msg =>
    ({ stB with table := aerase stB.table sid }, [Event.sessionError msg])
  | none =>
    let pid := stB.os.nextPid
    let tid := stB.os.nextTid
    let osS := { stB.os with
        alive := pid :: stB.os.alive,
        nextPid := pid + 1,
        nextTid := tid + 1 }
    let s := heapGetD stB.heap r
    ({ stB with
        os := osS,
        heap := aset stB.heap r
          { s with child := some pid, temp_file := some ⟨d, "user_code.sql"⟩, thread := some tid } },
     [Event.sessionStarted])

/-- Everything `start_session` does after the `cleanup_ephemeral_session`
call on the stale session: register the fresh session dict in
`ephemeral_sessions` (BEFORE any spawn), then run the language branch. -/
def start_session_after_cleanup (st1 : ServerState) (sid code language : String)
    (spawnErr : Option String) : ServerState × List Event :=
  let r := st1.nextRef
  let st2 := { st1 with
      table := aset st1.table sid r,
      heap := aset st1.heap r freshSession,
      nextRef := r + 1 }
  if language ≠ "sql" then start_nonsql st2 r sid code language spawnErr
  else start_sql st2 r sid code spawnErr

/-- `start_session(data)`: trim + lowercase the inputs, reject empty code
and unsupported languages before touching any state, then evict any stale
session and run the launch sequence.  `spawnErr` is the environment's
answer to `pexpect.spawn` (`some msg` = the constructor raised `msg`). -/
def start_session (st : ServerState) (sid : String) (data : StartData)
    (spawnErr : Option String) : ServerState × List Event :=
  let code := pyStrip (data.code.getD "")
  let language := pyLower (pyStrip (data.language.getD "python"))
  if code = "" then (st, [Event.sessionError "No code provided"])
  else if (alookup LANG_EXTENSIONS language).isNone then
    (st, [Event.sessionError ("Unsupported language '" ++ language ++ "'")])
  else
    start_session_after_cleanup (cleanup_ephemeral_session st sid) sid code language spawnErr

/-- The server state at the moment `pexpect.spawn` is invoked during
`start_session` (assuming validation passed).  Built from the same
intermediate definitions `start_session` runs through. -/
def start_spawn_state (st : ServerState) (sid : String) (data : StartData) : ServerState :=
  let code := pyStrip (data.code.getD "")
  let language := pyLower (pyStrip (data.language.getD "python"))
  let st1 := cleanup_ephemeral_session st sid
  let r := st1.nextRef
  let st2 := { st1 with
      table := aset st1.table sid r,
      heap := aset st1.heap r freshSession,
      nextRef := r + 1 }
  if language ≠ "sql" then start_nonsql_spawn_state st2 r code language
  else start_sql_spawn_state st2 r code

/-! ### Sample states used to instantiate the theorems -/

/-- The freshly booted server: no sessions, no processes, no workspaces. -/
def st0 : ServerState :=
  { table := [], heap := [],
    os := { alive := [], dirs := [], files := [], inputs := [],
            nextTmp := 0, nextPid := 0, nextTid := 0 },
    nextRef := 0 }

/-- A session as it looks while a spawned python child (pid 7) is running
in workspace `user_session_0`, which meanwhile contains a plot. -/
def sampleSession : Session :=
  { child := some 7, temp_dir := some "user_session_0", sql_temp_dir := none,
    temp_file := some ⟨"user_session_0", "user_code.py"⟩, thread := some 0,
    closing := false, sent_images := [] }

/-- A server with the single live session `sampleSession` under socket id
`"s1"`, its child alive and an oversized `plot.png` in its workspace. -/
def stLive : ServerState :=
  { table := [("s1", 0)], heap := [(0, sampleSession)],
    os := { alive := [7], dirs := ["user_session_0"],
            files := [(⟨"user_session_0", "user_code.py"⟩, FileContent.text "print(1)"),
                      (⟨"user_session_0", "plot.png"⟩, FileContent.image ⟨1000, 1200⟩)],
            inputs := [], nextTmp := 1, nextPid := 8, nextTid := 1 },
    nextRef := 1 }

/-! ### Properties of CleanupCoordinator -/

theorem killProcess_not_mem (os : OS) (pid : Nat) : pid ∉ (killProcess os pid).alive := by
  simp [killProcess, List.mem_filter]

theorem killProcess_mem_mono (os : OS) (pid q : Nat)
    (h : q ∉ os.alive) : q ∉ (killProcess os pid).alive := by
  simp only [killProcess, List.mem_filter]
  exact fun hc => h hc.1

theorem killProcess_dirs (os : OS) (pid : Nat) : (killProcess os pid).dirs = os.dirs := rfl

theorem rmtree_alive (os : OS) (d : String) : (rmtree os d).alive = os.alive := rfl

theorem rmtree_not_mem (os : OS) (d : String) : d ∉ (rmtree os d).dirs := by
  simp [rmtree, List.mem_filter]

theorem rmtree_mem_mono (os : OS) (d x : String)
    (h : x ∉ os.dirs) : x ∉ (rmtree os d).dirs := by
  simp only [rmtree, List.mem_filter]
  exact fun hc => h hc.1

/-- When no session is registered, `cleanup_ephemeral_session` returns at
once with no side effect. -/
theorem cleanup_no_session (st : ServerState) (sid : String)
    (h : alookup st.table sid = none) : cleanup_ephemeral_session st sid = st := by
  simp [cleanup_ephemeral_session, h]

/-- When the registered session is already `closing`,
`cleanup_ephemeral_session` returns at once with no side effect. -/
theorem cleanup_closing (st : ServerState) (sid : String) (r : Nat)
    (hTab : alookup st.table sid = some r) (hC : (heapGetD st.heap r).closing = true) :
    cleanup_ephemeral_session st sid = st := by
  simp [cleanup_ephemeral_session, hTab, hC]

theorem childStep_kills (x : OS) (pid : Nat) : pid ∉ (childStep x (some pid)).alive := by
  simp only [childStep]
  split
  · exact killProcess_not_mem x pid
  · assumption

theorem dirStep_alive (x : OS) (o : Option String) : (dirStep x o).alive = x.alive := by
  rcases o with _ | d
  · rfl
  · simp only [dirStep]
    split <;> rfl

theorem dirStep_removes (x : OS) (d : String) (hne : d ≠ "") :
    d ∉ (dirStep x (some d)).dirs := by
  simp only [dirStep]
  split
  · exact rmtree_not_mem _ _
  · rename_i hc
    intro hmem
    exact hc ⟨hne, hmem⟩

theorem dirStep_dirs_mono (x : OS) (o : Option String) (y : String)
    (h : y ∉ x.dirs) : y ∉ (dirStep x o).dirs := by
  rcases o with _ | d
  · exact h
  · simp only [dirStep]
    split
    · exact rmtree_mem_mono _ _ _ h
    · exact h

theorem cleanupOS_alive (os : OS) (s : Session) (pid : Nat) (h : s.child = some pid) :
    pid ∉ (cleanupOS os s).alive := by
  unfold cleanupOS
  rw [dirStep_alive, dirStep_alive, h]
  exact childStep_kills os pid

theorem cleanupOS_temp (os : OS) (s : Session) (d : String)
    (h : s.temp_dir = some d) (hne : d ≠ "") : d ∉ (cleanupOS os s).dirs := by
  unfold cleanupOS
  rw [h]
  exact dirStep_dirs_mono _ _ _ (dirStep_removes _ _ hne)

theorem cleanupOS_sql (os : OS) (s : Session) (d : String)
    (h : s.sql_temp_dir = some d) (hne : d ≠ "") : d ∉ (cleanupOS os s).dirs := by
  unfold cleanupOS
  rw [h]
  exact dirStep_removes _ _ hne

/-- The reduction of `cleanup_ephemeral_session` on a live (non-closing)
session. -/
theorem cleanup_reduce (st : ServerState) (sid : String) (r : Nat) (s : Session)
    (hTab : alookup st.table sid = some r) (hHeap : alookup st.heap r = some s)
    (hNC : s.closing = false) :
    cleanup_ephemeral_session st sid =
      { table := aerase st.table sid, heap := aset st.heap r clearedSession,
        os := cleanupOS st.os s, nextRef := st.nextRef } := by
  have hs : heapGetD st.heap r = s := by simp [heapGetD, hHeap]
  simp [cleanup_ephemeral_session, hTab, hs, hNC]

/-- The first `cleanup_ephemeral_session` call on a live (non-closing)
session: kills a live child, removes both workspace directories, replaces
the session object by the cleared one, pops the table entry. -/
theorem cleanup_run (st : ServerState) (sid : String) (r : Nat) (s : Session)
    (hTab : alookup st.table sid = some r) (hHeap : alookup st.heap r = some s)
    (hNC : s.closing = false) :
    alookup (cleanup_ephemeral_session st sid).table sid = none ∧
    alookup (cleanup_ephemeral_session st sid).heap r = some clearedSession ∧
    (cleanup_ephemeral_session st sid).nextRef = st.nextRef ∧
    (∀ pid, s.child = some pid → pid ∉ (cleanup_ephemeral_session st sid).os.alive) ∧
    (∀ d, s.temp_dir = some d → d ≠ "" → d ∉ (cleanup_ephemeral_session st sid).os.dirs) ∧
    (∀ d, s.sql_temp_dir = some d → d ≠ "" → d ∉ (cleanup_ephemeral_session st sid).os.dirs) := by
  rw [cleanup_reduce st sid r s hTab hHeap hNC]
  exact ⟨alookup_aerase_self _ _, alookup_aset_self _ _ _, rfl,
    fun pid h => cleanupOS_alive _ _ pid h,
    fun d h hne => cleanupOS_temp _ _ d h hne,
    fun d h hne => cleanupOS_sql _ _ d h hne⟩

/-- Claim C1: for every Session instance, the first invocation of
`cleanup_ephemeral_session` performs the teardown — kills the process if
alive, deletes the workspace directories (the Python truthiness test makes
an empty-string path a no-op, hence the `≠ ""` side conditions), clears
the Session's fields (the object becomes `clearedSession`), and removes
the Session from the table — and every later invocation for the same
sessionId returns immediately without any side effects, so invoking it N
times performs real teardown exactly once. -/
theorem cleanup_teardown_exactly_once (st : ServerState) (sid : String) (r : Nat) (s : Session)
    (hTab : alookup st.table sid = some r) (hHeap : alookup st.heap r = some s)
    (hNC : s.closing = false) :
    (∀ pid, s.child = some pid → pid ∉ (cleanup_ephemeral_session st sid).os.alive) ∧
    (∀ d, s.temp_dir = some d → d ≠ "" → d ∉ (cleanup_ephemeral_session st sid).os.dirs) ∧
    (∀ d, s.sql_temp_dir = some d → d ≠ "" → d ∉ (cleanup_ephemeral_session st sid).os.dirs) ∧
    alookup (cleanup_ephemeral_session st sid).heap r = some clearedSession ∧
    alookup (cleanup_ephemeral_session st sid).table sid = none ∧
    cleanup_ephemeral_session (cleanup_ephemeral_session st sid) sid =
      cleanup_ephemeral_session st sid ∧
    (∀ st2, alookup st2.table sid = none → cleanup_ephemeral_session st2 sid = st2) := by
  obtain ⟨h1, h2, h3, h4, h5, h6⟩ := cleanup_run st sid r s hTab hHeap hNC
  exact ⟨h4, h5, h6, h2, h1, cleanup_no_session _ _ h1,
    fun st2 h => cleanup_no_session st2 sid h⟩

theorem cleanup_teardown_exactly_once_witness :
    (7 : Nat) ∉ (cleanup_ephemeral_session stLive "s1").os.alive ∧
    "user_session_0" ∉ (cleanup_ephemeral_session stLive "s1").os.dirs ∧
    alookup (cleanup_ephemeral_session stLive "s1").table "s1" = none ∧
    cleanup_ephemeral_session (cleanup_ephemeral_session stLive "s1") "s1" =
      cleanup_ephemeral_session stLive "s1" := by
  obtain ⟨h1, h2, _, _, h5, h6, _⟩ :=
    cleanup_teardown_exactly_once stLive "s1" 0 sampleSession (by decide) (by decide) (by decide)
  exact ⟨h1 7 (by decide), h2 "user_session_0" (by decide) (by decide), h5, h6⟩

/-- Claim C10: a disconnect request from a client with no Session emits
exactly one `process_ended` event, no kill notice, and leaves the whole
server state (table, every other session, OS) unchanged. -/
theorem disconnect_without_session (st : ServerState) (sid : String)
    (h : alookup st.table sid = none) :
    handle_disconnect_session st sid = (st, [Event.processEnded]) := by
  simp [handle_disconnect_session, h, cleanup_no_session st sid h]

theorem disconnect_without_session_witness :
    handle_disconnect_session st0 "s1" = (st0, [Event.processEnded]) :=
  disconnect_without_session st0 "s1" (by decide)

/-- Claim C2 (failing part): a `start_session` for the sql language whose
spawn fails reports the error and leaves no Session registered, but — in
contrast both to the spec and to the non-sql branch — does NOT delete the
workspace directory it created (`sql_session_0` is still on disk). -/
theorem start_sql_spawn_failure_keeps_workspace :
    (start_session st0 "s1" ⟨some "select 1;", some "sql"⟩ (some "boom")).2 =
      [Event.sessionError "boom"] ∧
    alookup (start_session st0 "s1" ⟨some "select 1;", some "sql"⟩ (some "boom")).1.table "s1" =
      none ∧
    "sql_session_0" ∈
      (start_session st0 "s1" ⟨some "select 1;", some "sql"⟩ (some "boom")).1.os.dirs := by
  refine ⟨by decide, by decide, by decide⟩

/-- On the non-sql branch the spec's claim does hold: a failed spawn
deletes the freshly created workspace and deregisters the session. -/
theorem start_nonsql_spawn_failure_removes_workspace
    (st2 : ServerState) (r : Nat) (sid code language msg : String) :
    alookup (start_nonsql st2 r sid code language (some msg)).1.table sid = none ∧
    nonsqlTmpDir st2 ∉ (start_nonsql st2 r sid code language (some msg)).1.os.dirs ∧
    (start_nonsql st2 r sid code language (some msg)).2 = [Event.sessionError msg] := by
  refine ⟨alookup_aerase_self _ _, ?_, rfl⟩
  exact rmtree_not_mem _ _

theorem start_nonsql_spawn_failure_removes_workspace_witness :
    alookup (start_nonsql st0 0 "s1" "print(1)" "python" (some "boom")).1.table "s1" = none ∧
    "user_session_0" ∉ (start_nonsql st0 0 "s1" "print(1)" "python" (some "boom")).1.os.dirs := by
  obtain ⟨h1, h2, _⟩ :=
    start_nonsql_spawn_failure_removes_workspace st0 0 "s1" "print(1)" "python" "boom"
  exact ⟨h1, h2⟩

/-- Claim C3 (counterexample): contrary to the claim that the table never
contains the sessionId before a successful spawn, at the very moment
`pexpect.spawn` is invoked during a python `start_session` on a fresh
server the table already holds the new Session (registered with
`child = None` at TSserver.py line 227, before the spawn at line 261). -/
theorem registered_before_spawn_cex :
    alookup (start_spawn_state st0 "s1" ⟨some "print(1)", some "python"⟩).table "s1" =
      some 0 := by decide

theorem start_nonsql_spawn_state_table (st2 : ServerState) (r : Nat) (code language : String) :
    (start_nonsql_spawn_state st2 r code language).table = st2.table := rfl

theorem start_sql_spawn_state_table (st2 : ServerState) (r : Nat) (code : String) :
    (start_sql_spawn_state st2 r code).table = st2.table := by
  simp only [start_sql_spawn_state]
  split <;> rfl

/-- Claim C3 (amended): `start_session` registers the fresh Session in the
table BEFORE attempting the spawn; on spawn failure it removes that entry
again, so after the request completes the table holds an entry for the
sessionId exactly when the spawn succeeded. -/
theorem start_registration_matches_spawn_outcome
    (st : ServerState) (sid : String) (data : StartData) (spawnErr : Option String)
    (hcode : pyStrip (data.code.getD "") ≠ "")
    (hlang : (alookup LANG_EXTENSIONS (pyLower (pyStrip (data.language.getD "python")))).isSome) :
    (alookup (start_spawn_state st sid data).table sid).isSome = true ∧
    (spawnErr = none →
      (alookup (start_session st sid data spawnErr).1.table sid).isSome = true) ∧
    (∀ msg, spawnErr = some msg →
      alookup (start_session st sid data spawnErr).1.table sid = none) := by
  have hlangne : (alookup LANG_EXTENSIONS (pyLower (pyStrip (data.language.getD "python")))).isNone
      = false := by
    rcases hx : alookup LANG_EXTENSIONS (pyLower (pyStrip (data.language.getD "python"))) with _ | v
    · rw [hx] at hlang; simp at hlang
    · rfl
  constructor
  · simp only [start_spawn_state]
    split
    · rw [start_nonsql_spawn_state_table]
      simp [alookup_aset_self]
    · rw [start_sql_spawn_state_table]
      simp [alookup_aset_self]
  constructor
  · intro hsp
    subst hsp
    simp only [start_session, if_neg hcode, hlangne, Bool.false_eq_true, if_false,
      start_session_after_cleanup]
    split
    · simp only [start_nonsql]
      rw [start_nonsql_spawn_state_table]
      simp [alookup_aset_self]
    · simp only [start_sql]
      rw [start_sql_spawn_state_table]
      simp [alookup_aset_self]
  · intro msg hsp
    subst hsp
    simp only [start_session, if_neg hcode, hlangne, Bool.false_eq_true, if_false,
      start_session_after_cleanup]
    split
    · simp only [start_nonsql]
      exact alookup_aerase_self _ _
    · simp only [start_sql]
      exact alookup_aerase_self _ _

theorem start_registration_matches_spawn_outcome_witness :
    (alookup (start_spawn_state st0 "s1" ⟨some "print(1)", some "python"⟩).table "s1").isSome
      = true ∧
    (alookup (start_session st0 "s1" ⟨some "print(1)", some "python"⟩ none).1.table
      "s1").isSome = true ∧
    alookup (start_session st0 "s1" ⟨some "print(1)", some "python"⟩ (some "boom")).1.table "s1"
      = none := by
  obtain ⟨h1, h2, _⟩ := start_registration_matches_spawn_outcome st0 "s1"
    ⟨some "print(1)", some "python"⟩ none (by decide) (by decide)
  obtain ⟨_, _, h3⟩ := start_registration_matches_spawn_outcome st0 "s1"
    ⟨some "print(1)", some "python"⟩ (some "boom") (by decide) (by decide)
  exact ⟨h1, h2 rfl, h3 "boom" rfl⟩

theorem isNone_false_of_isSome {α : Type} (o : Option α) (h : o.isSome = true) :
    o.isNone = false := by
  rcases o with _ | v
  · simp at h
  · rfl

/-- Claim C8: a start request for a sessionId that already has a live
Session runs as `cleanup_ephemeral_session` first (killing the stale
process, removing the stale workspaces, deleting the table entry) and only
then, from that torn-down state, creates the new Session's dict, workspace
and process. -/
theorem start_evicts_stale_session_first
    (st : ServerState) (sid : String) (data : StartData) (spawnErr : Option String)
    (r : Nat) (s : Session)
    (hTab : alookup st.table sid = some r) (hHeap : alookup st.heap r = some s)
    (hNC : s.closing = false)
    (hcode : pyStrip (data.code.getD "") ≠ "")
    (hlang : (alookup LANG_EXTENSIONS (pyLower (pyStrip (data.language.getD "python")))).isSome) :
    start_session st sid data spawnErr =
      start_session_after_cleanup (cleanup_ephemeral_session st sid) sid
        (pyStrip (data.code.getD "")) (pyLower (pyStrip (data.language.getD "python")))
        spawnErr ∧
    (∀ pid, s.child = some pid → pid ∉ (cleanup_ephemeral_session st sid).os.alive) ∧
    (∀ d, s.temp_dir = some d → d ≠ "" → d ∉ (cleanup_ephemeral_session st sid).os.dirs) ∧
    (∀ d, s.sql_temp_dir = some d → d ≠ "" → d ∉ (cleanup_ephemeral_session st sid).os.dirs) ∧
    alookup (cleanup_ephemeral_session st sid).table sid = none := by
  have hlangne := isNone_false_of_isSome _ hlang
  constructor
  · simp only [start_session, if_neg hcode, hlangne, Bool.false_eq_true, if_false]
  · obtain ⟨h1, _, _, h4, h5, h6⟩ := cleanup_run st sid r s hTab hHeap hNC
    exact ⟨h4, h5, h6, h1⟩

theorem start_evicts_stale_session_first_witness :
    start_session stLive "s1" ⟨some "print(2)", some "python"⟩ none =
      start_session_after_cleanup (cleanup_ephemeral_session stLive "s1") "s1"
        "print(2)" "python" none ∧
    (7 : Nat) ∉ (cleanup_ephemeral_session stLive "s1").os.alive ∧
    alookup (cleanup_ephemeral_session stLive "s1").table "s1" = none := by
  obtain ⟨h1, h2, _, _, h5⟩ := start_evicts_stale_session_first stLive "s1"
    ⟨some "print(2)", some "python"⟩ none 0 sampleSession
    (by decide) (by decide) (by decide) (by decide) (by decide)
  exact ⟨h1, h2 7 (by decide), h5⟩

/-- Claim C6: the four cases of an input request.  No Session: notice +
`process_ended`, state untouched (no cleanup).  Session closing:
session-closed notice + `process_ended` + cleanup.  Child absent or dead:
no-active-session notice + `process_ended` + cleanup.  Live child: the
line plus a terminator is written to the child's stdin and no event at all
is emitted. -/
theorem send_input_cases (st : ServerState) (sid : String) (line : Option String) :
    (alookup st.table sid = none →
      handle_send_input st sid line =
        (st, [Event.output "[No active session]\n", Event.processEnded])) ∧
    (∀ r, alookup st.table sid = some r →
      ((heapGetD st.heap r).closing = true →
        handle_send_input st sid line =
          (cleanup_ephemeral_session st sid,
           [Event.output "[Session closed]\n", Event.processEnded])) ∧
      ((heapGetD st.heap r).closing = false →
        ((heapGetD st.heap r).child = none →
          handle_send_input st sid line =
            (cleanup_ephemeral_session st sid,
             [Event.output "[No active session]\n", Event.processEnded])) ∧
        (∀ pid, (heapGetD st.heap r).child = some pid →
          (pid ∉ st.os.alive →
            handle_send_input st sid line =
              (cleanup_ephemeral_session st sid,
               [Event.output "[No active session]\n", Event.processEnded])) ∧
          (pid ∈ st.os.alive →
            handle_send_input st sid line =
              ({ st with os := { st.os with
                  inputs := st.os.inputs ++ [(pid, (line.getD "") ++ "\n")] } },
               []))))) := by
  constructor
  · intro h
    simp [handle_send_input, h]
  · intro r hTab
    constructor
    · intro hC
      simp [handle_send_input, hTab, hC]
    · intro hNC
      constructor
      · intro hchild
        simp [handle_send_input, hTab, hNC, hchild]
      · intro pid hchild
        constructor
        · intro hdead
          simp [handle_send_input, hTab, hNC, hchild, hdead]
        · intro halive
          simp [handle_send_input, hTab, hNC, hchild, halive]

theorem send_input_cases_witness :
    handle_send_input st0 "s1" (some "5") =
      (st0, [Event.output "[No active session]\n", Event.processEnded]) ∧
    handle_send_input stLive "s1" (some "42") =
      ({ stLive with os := { stLive.os with inputs := [(7, "42\n")] } }, []) := by
  refine ⟨(send_input_cases st0 "s1" (some "5")).1 (by decide), ?_⟩
  have h := (((send_input_cases stLive "s1" (some "42")).2 0 (by decide)).2
    (by decide)).2 7 (by decide)
  exact h.2 (by decide)

/-! ### Preservation lemmas for the artifact scan -/

theorem handle_plot_file_pres (st : ServerState) (pil : Bool) (sid : String) (p : FPath) :
    (handle_plot_file st pil sid p).1.table = st.table ∧
    (handle_plot_file st pil sid p).1.os = st.os ∧
    (handle_plot_file st pil sid p).1.nextRef = st.nextRef := by
  unfold handle_plot_file
  cases h : alookup st.table sid with
  | none => exact ⟨rfl, rfl, rfl⟩
  | some r =>
    cases hf : alookup st.os.files p with
    | none => exact ⟨rfl, rfl, rfl⟩
    | some c =>
      cases pil
      · exact ⟨rfl, rfl, rfl⟩
      · cases c
        · exact ⟨rfl, rfl, rfl⟩
        · exact ⟨rfl, rfl, rfl⟩

theorem markSent_heapGetD (st : ServerState) (r : Nat) (p : FPath) :
    heapGetD (markSent st r p).heap r =
      { heapGetD st.heap r with
        sent_images := sinsert p (heapGetD st.heap r).sent_images } := by
  simp [markSent, heapGetD, alookup_aset_self]

theorem handle_plot_file_heap (st : ServerState) (pil : Bool) (sid : String) (r : Nat)
    (p : FPath) (hTab : alookup st.table sid = some r) :
    (heapGetD (handle_plot_file st pil sid p).1.heap r).closing =
      (heapGetD st.heap r).closing ∧
    (heapGetD (handle_plot_file st pil sid p).1.heap r).temp_dir =
      (heapGetD st.heap r).temp_dir ∧
    (∀ q, q ∈ (heapGetD st.heap r).sent_images →
      q ∈ (heapGetD (handle_plot_file st pil sid p).1.heap r).sent_images) := by
  unfold handle_plot_file
  simp only [hTab]
  cases hf : alookup st.os.files p with
  | none => exact ⟨rfl, rfl, fun q h => h⟩
  | some c =>
    cases pil with
    | false =>
      refine ⟨?_, ?_, ?_⟩
      · show (heapGetD (markSent st r p).heap r).closing = (heapGetD st.heap r).closing
        rw [markSent_heapGetD]
      · show (heapGetD (markSent st r p).heap r).temp_dir = (heapGetD st.heap r).temp_dir
        rw [markSent_heapGetD]
      · intro q h
        show q ∈ (heapGetD (markSent st r p).heap r).sent_images
        rw [markSent_heapGetD]
        exact mem_sinsert_of_mem p h
    | true =>
      cases c with
      | text s' => exact ⟨rfl, rfl, fun q h => h⟩
      | image im =>
        refine ⟨?_, ?_, ?_⟩
        · show (heapGetD (markSent st r p).heap r).closing = (heapGetD st.heap r).closing
          rw [markSent_heapGetD]
        · show (heapGetD (markSent st r p).heap r).temp_dir = (heapGetD st.heap r).temp_dir
          rw [markSent_heapGetD]
        · intro q h
          show q ∈ (heapGetD (markSent st r p).heap r).sent_images
          rw [markSent_heapGetD]
          exact mem_sinsert_of_mem p h

theorem scanPaths_pres (pil : Bool) (sid : String) (r : Nat) (L : List FPath) :
    ∀ st : ServerState,
      (scanPaths pil sid r st L).1.table = st.table ∧
      (scanPaths pil sid r st L).1.os = st.os ∧
      (scanPaths pil sid r st L).1.nextRef = st.nextRef := by
  induction L with
  | nil => intro st; exact ⟨rfl, rfl, rfl⟩
  | cons p rest ih =>
    intro st
    simp only [scanPaths]
    split
    · exact ih st
    · obtain ⟨ht, ho, hn⟩ := handle_plot_file_pres st pil sid p
      obtain ⟨ht2, ho2, hn2⟩ := ih (handle_plot_file st pil sid p).1
      exact ⟨ht2.trans ht, ho2.trans ho, hn2.trans hn⟩

theorem scanPaths_heap (pil : Bool) (sid : String) (r : Nat) (L : List FPath) :
    ∀ st : ServerState, alookup st.table sid = some r →
      (heapGetD (scanPaths pil sid r st L).1.heap r).closing =
        (heapGetD st.heap r).closing ∧
      (heapGetD (scanPaths pil sid r st L).1.heap r).temp_dir =
        (heapGetD st.heap r).temp_dir ∧
      (∀ q, q ∈ (heapGetD st.heap r).sent_images →
        q ∈ (heapGetD (scanPaths pil sid r st L).1.heap r).sent_images) := by
  induction L with
  | nil => intro st _; exact ⟨rfl, rfl, fun q h => h⟩
  | cons p rest ih =>
    intro st hTab
    simp only [scanPaths]
    split
    · exact ih st hTab
    · have hTab1 : alookup (handle_plot_file st pil sid p).1.table sid = some r := by
        rw [(handle_plot_file_pres st pil sid p).1]; exact hTab
      obtain ⟨hc1, hd1, hm1⟩ := handle_plot_file_heap st pil sid r p hTab
      obtain ⟨hc2, hd2, hm2⟩ := ih (handle_plot_file st pil sid p).1 hTab1
      exact ⟨hc2.trans hc1, hd2.trans hd1, fun q h => hm2 q (hm1 q h)⟩

theorem scanDir_table (st : ServerState) (pil : Bool) (sid : String) (r : Nat) :
    (scanDir st pil sid r).1.table = st.table := by
  unfold scanDir
  cases hd : (heapGetD st.heap r).temp_dir with
  | none => rfl
  | some d =>
    by_cases he : d = ""
    · simp [he]
    · simp only [if_neg he]
      by_cases hm : d ∈ st.os.dirs
      · simp only [if_pos hm]
        exact (scanPaths_pres pil sid r (globImages st.os d) st).1
      · simp [hm]

theorem scanDir_os (st : ServerState) (pil : Bool) (sid : String) (r : Nat) :
    (scanDir st pil sid r).1.os = st.os := by
  unfold scanDir
  cases hd : (heapGetD st.heap r).temp_dir with
  | none => rfl
  | some d =>
    by_cases he : d = ""
    · simp [he]
    · simp only [if_neg he]
      by_cases hm : d ∈ st.os.dirs
      · simp only [if_pos hm]
        exact (scanPaths_pres pil sid r (globImages st.os d) st).2.1
      · simp [hm]

theorem scanDir_nextRef (st : ServerState) (pil : Bool) (sid : String) (r : Nat) :
    (scanDir st pil sid r).1.nextRef = st.nextRef := by
  unfold scanDir
  cases hd : (heapGetD st.heap r).temp_dir with
  | none => rfl
  | some d =>
    by_cases he : d = ""
    · simp [he]
    · simp only [if_neg he]
      by_cases hm : d ∈ st.os.dirs
      · simp only [if_pos hm]
        exact (scanPaths_pres pil sid r (globImages st.os d) st).2.2
      · simp [hm]

theorem scan_pres (st : ServerState) (pil : Bool) (sid : String) :
    (scan_for_new_images st pil sid).1.table = st.table ∧
    (scan_for_new_images st pil sid).1.os = st.os ∧
    (scan_for_new_images st pil sid).1.nextRef = st.nextRef := by
  unfold scan_for_new_images
  cases h : alookup st.table sid with
  | none => exact ⟨rfl, rfl, rfl⟩
  | some r => exact ⟨scanDir_table st pil sid r, scanDir_os st pil sid r,
      scanDir_nextRef st pil sid r⟩

theorem scanDir_closing (st : ServerState) (pil : Bool) (sid : String) (r : Nat)
    (hTab : alookup st.table sid = some r) :
    (heapGetD (scanDir st pil sid r).1.heap r).closing =
      (heapGetD st.heap r).closing := by
  unfold scanDir
  cases hd : (heapGetD st.heap r).temp_dir with
  | none => rfl
  | some d =>
    by_cases he : d = ""
    · simp [he]
    · simp only [if_neg he]
      by_cases hm : d ∈ st.os.dirs
      · simp only [if_pos hm]
        exact (scanPaths_heap pil sid r (globImages st.os d) st hTab).1
      · simp [hm]

theorem scanDir_sent (st : ServerState) (pil : Bool) (sid : String) (r : Nat)
    (hTab : alookup st.table sid = some r) :
    ∀ q, q ∈ (heapGetD st.heap r).sent_images →
      q ∈ (heapGetD (scanDir st pil sid r).1.heap r).sent_images := by
  unfold scanDir
  cases hd : (heapGetD st.heap r).temp_dir with
  | none => exact fun q h => h
  | some d =>
    by_cases he : d = ""
    · simp only [if_pos he]
      exact fun q h => h
    · simp only [if_neg he]
      by_cases hm : d ∈ st.os.dirs
      · simp only [if_pos hm]
        exact (scanPaths_heap pil sid r (globImages st.os d) st hTab).2.2
      · simp only [if_neg hm]
        exact fun q h => h

theorem scan_closing (st : ServerState) (pil : Bool) (sid : String) (r : Nat)
    (hTab : alookup st.table sid = some r) :
    (heapGetD (scan_for_new_images st pil sid).1.heap r).closing =
      (heapGetD st.heap r).closing := by
  unfold scan_for_new_images
  simp only [hTab]
  exact scanDir_closing st pil sid r hTab

theorem scan_sent (st : ServerState) (pil : Bool) (sid : String) (r : Nat)
    (hTab : alookup st.table sid = some r) :
    ∀ q, q ∈ (heapGetD st.heap r).sent_images →
      q ∈ (heapGetD (scan_for_new_images st pil sid).1.heap r).sent_images := by
  unfold scan_for_new_images
  simp only [hTab]
  exact scanDir_sent st pil sid r hTab

/-- When a non-closing session is registered, cleanup pops the table
entry. -/
theorem cleanup_pops (st : ServerState) (sid : String) (r : Nat)
    (hTab : alookup st.table sid = some r)
    (hNC : (heapGetD st.heap r).closing = false) :
    alookup (cleanup_ephemeral_session st sid).table sid = none := by
  simp only [cleanup_ephemeral_session, hTab, hNC, Bool.false_eq_true, if_false]
  exact alookup_aerase_self _ _

/-- Claim C5: when the pump's read loop ends on a session that is not yet
`closing`, the pump forwards the drain read when non-empty (and the I/O
error report when the body raised), runs the artifact scan once, emits
exactly one `process_ended`, and hands the scanned state to
`cleanup_ephemeral_session` — whose teardown pops the table entry.  When
the session is already `closing`, nothing but a possible error report is
emitted and the final cleanup invocation is a no-op. -/
theorem pump_finish_behaviour (st : ServerState) (pil : Bool) (sid : String) (r : Nat)
    (s : Session)
    (hTab : alookup st.table sid = some r) (hHeap : alookup st.heap r = some s) :
    (s.closing = false →
      (∀ leftover, read_output_finish st pil sid r (LoopResult.ok leftover) =
        (cleanup_ephemeral_session (scan_for_new_images st pil sid).1 sid,
         (if leftover = "" then [] else [Event.output leftover]) ++
           (scan_for_new_images st pil sid).2 ++ [Event.processEnded])) ∧
      (∀ msg, read_output_finish st pil sid r (LoopResult.failed msg) =
        (cleanup_ephemeral_session (scan_for_new_images st pil sid).1 sid,
         [Event.sessionError msg] ++ (scan_for_new_images st pil sid).2 ++
           [Event.processEnded])) ∧
      (∀ res, alookup (read_output_finish st pil sid r res).1.table sid = none)) ∧
    (s.closing = true →
      ∀ res, read_output_finish st pil sid r res =
        (st, match res with
             | LoopResult.ok _ => []
             | LoopResult.failed msg => [Event.sessionError msg])) := by
  have hs : heapGetD st.heap r = s := by simp [heapGetD, hHeap]
  constructor
  · intro hNC
    have hTab1 : alookup (scan_for_new_images st pil sid).1.table sid = some r := by
      rw [(scan_pres st pil sid).1]; exact hTab
    have hNC1 : (heapGetD (scan_for_new_images st pil sid).1.heap r).closing = false := by
      rw [scan_closing st pil sid r hTab, hs]; exact hNC
    refine ⟨?_, ?_, ?_⟩
    · intro leftover
      simp only [read_output_finish, hs, hNC, Bool.false_eq_true, if_false]
    · intro msg
      simp only [read_output_finish, hs, hNC, Bool.false_eq_true, if_false]
    · intro res
      have h1 : (read_output_finish st pil sid r res).1 =
          cleanup_ephemeral_session (scan_for_new_images st pil sid).1 sid := by
        cases res <;>
          simp only [read_output_finish, hs, hNC, Bool.false_eq_true, if_false]
      rw [h1]
      exact cleanup_pops _ sid r hTab1 hNC1
  · intro hC res
    have hno : cleanup_ephemeral_session st sid = st := by
      apply cleanup_closing st sid r hTab
      rw [hs]; exact hC
    cases res <;>
      simp only [read_output_finish, hs, hC, if_true, hno]

theorem pump_finish_behaviour_witness :
    read_output_finish stLive true "s1" 0 (LoopResult.ok "tail") =
      (cleanup_ephemeral_session (scan_for_new_images stLive true "s1").1 "s1",
       [Event.output "tail"] ++ (scan_for_new_images stLive true "s1").2 ++
         [Event.processEnded]) ∧
    alookup (read_output_finish stLive true "s1" 0 (LoopResult.ok "tail")).1.table "s1" =
      none := by
  obtain ⟨h, _⟩ := pump_finish_behaviour stLive true "s1" 0 sampleSession
    (by decide) (by decide)
  obtain ⟨h1, _, h3⟩ := h (by decide)
  refine ⟨?_, h3 (LoopResult.ok "tail")⟩
  have := h1 "tail"
  simpa using this

/-- Events counted as `process_ended`. -/
def isEnded : Event → Bool
  | Event.processEnded => true
  | _ => false

def countEnded (ev : List Event) : Nat := ev.countP isEnded

/-- Claim C4: a disconnect/kill request on a live session emits the
kill-notice output and exactly one `process_ended`; its cleanup flips
`closing`, after which the pump's finishing path emits neither the drain
output, nor any artifact event, nor its own `process_ended` — so across
the two paths `process_ended` is emitted exactly once. -/
theorem disconnect_suppresses_pump (st : ServerState) (sid : String) (r : Nat) (s : Session)
    (hTab : alookup st.table sid = some r) (hHeap : alookup st.heap r = some s)
    (hNC : s.closing = false) :
    handle_disconnect_session st sid =
      (cleanup_ephemeral_session st sid,
       [Event.output "[Session killed by user]\n", Event.processEnded]) ∧
    (∀ pil res, read_output_finish (cleanup_ephemeral_session st sid) pil sid r res =
      (cleanup_ephemeral_session st sid,
       match res with
       | LoopResult.ok _ => []
       | LoopResult.failed msg => [Event.sessionError msg])) ∧
    (∀ pil res,
      countEnded ((handle_disconnect_session st sid).2 ++
        (read_output_finish (cleanup_ephemeral_session st sid) pil sid r res).2) = 1) := by
  have hs : heapGetD st.heap r = s := by simp [heapGetD, hHeap]
  obtain ⟨hpop, hheap, _, _, _, _⟩ := cleanup_run st sid r s hTab hHeap hNC
  have hdisc : handle_disconnect_session st sid =
      (cleanup_ephemeral_session st sid,
       [Event.output "[Session killed by user]\n", Event.processEnded]) := by
    simp [handle_disconnect_session, hTab, hs, hNC]
  have hclosed : (heapGetD (cleanup_ephemeral_session st sid).heap r).closing = true := by
    simp [heapGetD, hheap, clearedSession]
  have hpump : ∀ pil res,
      read_output_finish (cleanup_ephemeral_session st sid) pil sid r res =
        (cleanup_ephemeral_session st sid,
         match res with
         | LoopResult.ok _ => []
         | LoopResult.failed msg => [Event.sessionError msg]) := by
    intro pil res
    have hno : cleanup_ephemeral_session (cleanup_ephemeral_session st sid) sid =
        cleanup_ephemeral_session st sid := cleanup_no_session _ _ hpop
    cases res <;>
      simp only [read_output_finish, hclosed, if_true, hno]
  refine ⟨hdisc, hpump, ?_⟩
  intro pil res
  rw [hdisc, hpump pil res]
  cases res <;> rfl

theorem disconnect_suppresses_pump_witness :
    handle_disconnect_session stLive "s1" =
      (cleanup_ephemeral_session stLive "s1",
       [Event.output "[Session killed by user]\n", Event.processEnded]) ∧
    read_output_finish (cleanup_ephemeral_session stLive "s1") true "s1" 0
      (LoopResult.ok "tail") = (cleanup_ephemeral_session stLive "s1", []) ∧
    countEnded ((handle_disconnect_session stLive "s1").2 ++
      (read_output_finish (cleanup_ephemeral_session stLive "s1") true "s1" 0
        (LoopResult.ok "tail")).2) = 1 := by
  obtain ⟨h1, h2, h3⟩ := disconnect_suppresses_pump stLive "s1" 0 sampleSession
    (by decide) (by decide) (by decide)
  exact ⟨h1, h2 true (LoopResult.ok "tail"), h3 true (LoopResult.ok "tail")⟩

/-! ### Properties of the thumbnail computation -/

theorem adist_add_self (a r : Nat) : adist a (a + r) = r := by
  simp only [adist]; omega

theorem adist_add_self_left (a r : Nat) : adist (a + r) a = r := by
  simp only [adist]; omega

/-- The rounded width is the floor, the ceiling (only in the inexact
case), or the clamp value 1 (only when the floor is 0). -/
theorem pil_round_aspect_x_cases (w h : Nat) :
    pil_round_aspect_x w h = MAX_DIM * w / h ∨
    (pil_round_aspect_x w h = MAX_DIM * w / h + 1 ∧ MAX_DIM * w % h ≠ 0) ∨
    (pil_round_aspect_x w h = 1 ∧ MAX_DIM * w / h = 0) := by
  have hval : pil_round_aspect_x w h = max (MAX_DIM * w / h) 1 ∨
      (pil_round_aspect_x w h = max (MAX_DIM * w / h + 1) 1 ∧ MAX_DIM * w % h ≠ 0) := by
    simp only [pil_round_aspect_x]
    by_cases hmod : MAX_DIM * w % h = 0
    · simp only [if_pos hmod, ite_self]
      left; trivial
    · simp only [if_neg hmod]
      by_cases hcmp : adist (MAX_DIM * w) (MAX_DIM * w / h * h) ≤
          adist (MAX_DIM * w) ((MAX_DIM * w / h + 1) * h)
      · rw [if_pos hcmp]
        left; rfl
      · rw [if_neg hcmp]
        exact Or.inr ⟨rfl, hmod⟩
  rcases hval with hc | ⟨hc, hmod⟩
  · rcases Nat.eq_zero_or_pos (MAX_DIM * w / h) with h0 | hpos
    · rw [h0] at hc
      exact Or.inr (Or.inr ⟨hc.trans (by decide), h0⟩)
    · exact Or.inl (hc.trans (max_eq_left hpos))
  · exact Or.inr (Or.inl ⟨hc.trans (max_eq_left (Nat.succ_le_succ (Nat.zero_le _))), hmod⟩)

theorem pil_round_aspect_y_cases (w h : Nat) :
    pil_round_aspect_y w h = MAX_DIM * h / w ∨
    (pil_round_aspect_y w h = MAX_DIM * h / w + 1 ∧ MAX_DIM * h % w ≠ 0) ∨
    (pil_round_aspect_y w h = 1 ∧ MAX_DIM * h / w = 0) := by
  by_cases h0 : MAX_DIM * h / w = 0
  · refine Or.inr (Or.inr ⟨?_, h0⟩)
    simp only [pil_round_aspect_y]
    rw [if_pos h0, h0]
    decide
  · have hval : pil_round_aspect_y w h = max (MAX_DIM * h / w) 1 ∨
        (pil_round_aspect_y w h = max (MAX_DIM * h / w + 1) 1 ∧ MAX_DIM * h % w ≠ 0) := by
      simp only [pil_round_aspect_y]
      rw [if_neg h0]
      by_cases hmod : MAX_DIM * h % w = 0
      · simp only [if_pos hmod, ite_self]
        left; trivial
      · simp only [if_neg hmod]
        split
        · left; rfl
        · exact Or.inr ⟨rfl, hmod⟩
    rcases hval with hc | ⟨hc, hmod⟩
    · exact Or.inl (hc.trans (max_eq_left (Nat.pos_of_ne_zero h0)))
    · exact Or.inr (Or.inl ⟨hc.trans (max_eq_left (Nat.succ_le_succ (Nat.zero_le _))), hmod⟩)

theorem adist_cancel_left (a b c : Nat) : adist (a + b) (a + c) = adist b c := by
  simp only [adist]; omega

theorem pil_round_aspect_x_le (w h : Nat) (hwh : w ≤ h) (hh : 0 < h) :
    pil_round_aspect_x w h ≤ MAX_DIM := by
  have hfl : MAX_DIM * w / h ≤ MAX_DIM := by
    calc MAX_DIM * w / h ≤ MAX_DIM * h / h :=
          Nat.div_le_div_right (Nat.mul_le_mul_left _ hwh)
      _ = MAX_DIM := Nat.mul_div_cancel MAX_DIM hh
  rcases pil_round_aspect_x_cases w h with hc | ⟨hc, hmod⟩ | ⟨hc, _⟩
  · omega
  · have hlt : MAX_DIM * w / h < MAX_DIM := by
      rcases Nat.lt_or_ge w h with hlt | hge
      · have hmul : MAX_DIM * w < h * MAX_DIM := by
          rw [Nat.mul_comm h MAX_DIM]
          exact mul_lt_mul_of_pos_left hlt (by simp [MAX_DIM])
        exact Nat.div_lt_of_lt_mul hmul
      · have heq : w = h := le_antisymm hwh hge
        subst heq
        exact absurd (Nat.mul_mod_left MAX_DIM w) hmod
    omega
  · simp only [MAX_DIM]
    omega

theorem pil_round_aspect_y_le (w h : Nat) (hhw : h < w) :
    pil_round_aspect_y w h ≤ MAX_DIM := by
  have hlt : MAX_DIM * h / w < MAX_DIM := by
    have hmul : MAX_DIM * h < w * MAX_DIM := by
      rw [Nat.mul_comm w MAX_DIM]
      exact mul_lt_mul_of_pos_left hhw (by simp [MAX_DIM])
    exact Nat.div_lt_of_lt_mul hmul
  rcases pil_round_aspect_y_cases w h with hc | ⟨hc, _⟩ | ⟨hc, _⟩
  · omega
  · omega
  · simp only [MAX_DIM]
    omega

theorem pil_round_aspect_x_aspect (w h : Nat) (hh : 0 < h) :
    adist (pil_round_aspect_x w h * h) (MAX_DIM * w) ≤ h := by
  have hdm := Nat.div_add_mod (MAX_DIM * w) h
  have hmlt := Nat.mod_lt (MAX_DIM * w) hh
  rcases pil_round_aspect_x_cases w h with hc | ⟨hc, _⟩ | ⟨hc, h0⟩ <;> rw [hc]
  · generalize hq : MAX_DIM * w = q at hdm hmlt ⊢
    generalize hfl : q / h = fl at hdm ⊢
    generalize hrem : q % h = rem at hdm hmlt
    rw [← hdm, Nat.mul_comm fl h, adist_add_self]
    omega
  · generalize hq : MAX_DIM * w = q at hdm hmlt ⊢
    generalize hfl : q / h = fl at hdm ⊢
    generalize hrem : q % h = rem at hdm hmlt
    have hexp : (fl + 1) * h = h * fl + h := by ring
    rw [hexp, ← hdm, adist_cancel_left]
    simp only [adist]
    omega
  · generalize hq : MAX_DIM * w = q at hdm hmlt h0 ⊢
    generalize hfl : q / h = fl at hdm h0
    generalize hrem : q % h = rem at hdm hmlt
    subst h0
    rw [one_mul]
    have hql : q < h := by omega
    simp only [adist]
    omega

theorem pil_round_aspect_y_aspect (w h : Nat) (hw : 0 < w) :
    adist (MAX_DIM * h) (pil_round_aspect_y w h * w) ≤ w := by
  have hdm := Nat.div_add_mod (MAX_DIM * h) w
  have hmlt := Nat.mod_lt (MAX_DIM * h) hw
  rcases pil_round_aspect_y_cases w h with hc | ⟨hc, _⟩ | ⟨hc, h0⟩ <;> rw [hc]
  · generalize hq : MAX_DIM * h = q at hdm hmlt ⊢
    generalize hfl : q / w = fl at hdm ⊢
    generalize hrem : q % w = rem at hdm hmlt
    rw [← hdm, Nat.mul_comm fl w, adist_add_self_left]
    omega
  · generalize hq : MAX_DIM * h = q at hdm hmlt ⊢
    generalize hfl : q / w = fl at hdm ⊢
    generalize hrem : q % w = rem at hdm hmlt
    have hexp : (fl + 1) * w = w * fl + w := by ring
    rw [hexp, ← hdm, adist_cancel_left]
    simp only [adist]
    omega
  · generalize hq : MAX_DIM * h = q at hdm hmlt h0 ⊢
    generalize hfl : q / w = fl at hdm h0
    generalize hrem : q % w = rem at hdm hmlt
    subst h0
    rw [one_mul]
    have hql : q < w := by omega
    simp only [adist]
    omega

/-- Claim C9: with the resizing capability (PIL) available, an image with
either dimension above 800 is downscaled so that its longest side is at
most 800, preserving the aspect ratio up to integer rounding (the
cross-products of the old and new dimensions differ by at most one
rounding unit, `max w h`); an image with both dimensions at most 800 is
left untouched. -/
theorem plot_resize_bounds (w h : Nat) (hw : 1 ≤ w) (hh : 1 ≤ h) :
    (w ≤ MAX_DIM → h ≤ MAX_DIM → plotResize ⟨w, h⟩ = ⟨w, h⟩) ∧
    (MAX_DIM < w ∨ MAX_DIM < h →
      max (plotResize ⟨w, h⟩).width (plotResize ⟨w, h⟩).height ≤ MAX_DIM ∧
      adist ((plotResize ⟨w, h⟩).width * h) ((plotResize ⟨w, h⟩).height * w) ≤
        max w h) := by
  constructor
  · intro h1 h2
    unfold plotResize
    rw [if_neg]
    intro hc
    rcases hc with hc | hc
    · exact absurd h1 (by simpa using hc)
    · exact absurd h2 (by simpa using hc)
  · intro hover
    have hred : plotResize ⟨w, h⟩ = pil_thumbnail ⟨w, h⟩ := by
      unfold plotResize
      rw [if_pos]
      rcases hover with hc | hc
      · exact Or.inl (by simpa using hc)
      · exact Or.inr (by simpa using hc)
    rw [hred]
    unfold pil_thumbnail
    rw [if_neg (by
      intro hc
      obtain ⟨hc1, hc2⟩ := hc
      simp only at hc1 hc2
      omega)]
    by_cases hwh : (⟨w, h⟩ : Image).height ≥ (⟨w, h⟩ : Image).width
    · rw [if_pos hwh]
      simp only at hwh
      have hh800 : MAX_DIM < h := by
        rcases hover with hc | hc <;> omega
      constructor
      · have hle := pil_round_aspect_x_le w h hwh (by omega)
        simp only
        omega
      · have ha := pil_round_aspect_x_aspect w h (by omega)
        have hmax : h ≤ max w h := le_max_right w h
        simp only
        omega
    · rw [if_neg hwh]
      simp only at hwh
      have hwlt : h < w := by omega
      constructor
      · have hle := pil_round_aspect_y_le w h hwlt
        simp only
        omega
      · have ha := pil_round_aspect_y_aspect w h (by omega)
        have hmax : w ≤ max w h := le_max_left w h
        simp only
        omega

theorem plot_resize_bounds_witness :
    plotResize ⟨200, 150⟩ = ⟨200, 150⟩ ∧
    max (plotResize ⟨1000, 1200⟩).width (plotResize ⟨1000, 1200⟩).height ≤ MAX_DIM ∧
    adist ((plotResize ⟨1000, 1200⟩).width * 1200)
      ((plotResize ⟨1000, 1200⟩).height * 1000) ≤ max 1000 1200 := by
  obtain ⟨h1, _⟩ := plot_resize_bounds 200 150 (by decide) (by decide)
  obtain ⟨_, h2⟩ := plot_resize_bounds 1000 1200 (by decide) (by decide)
  obtain ⟨h2a, h2b⟩ := h2 (by decide)
  exact ⟨h1 (by decide) (by decide), h2a, h2b⟩

/-! ### At-most-once transmission of artifacts -/

/-- The events that carry an artifact with basename `b`. -/
def isPlotFor (b : String) : Event → Bool
  | Event.plotImage f _ => decide (f = b)
  | _ => false

theorem isPlotFor_eq {b : String} {e : Event} (h : isPlotFor b e = true) :
    ∃ pay, e = Event.plotImage b pay := by
  cases e with
  | output data => exact absurd h (by simp [isPlotFor])
  | sessionStarted => exact absurd h (by simp [isPlotFor])
  | sessionError msg => exact absurd h (by simp [isPlotFor])
  | processEnded => exact absurd h (by simp [isPlotFor])
  | plotImage f pay =>
    simp only [isPlotFor] at h
    exact ⟨pay, by rw [of_decide_eq_true h]⟩

/-- `handle_plot_file` either transmits exactly the artifact of `p` and
marks `p` sent, or emits no artifact event and leaves the state alone. -/
theorem handle_plot_file_shape (st : ServerState) (pil : Bool) (sid : String) (r : Nat)
    (p : FPath) (hTab : alookup st.table sid = some r) :
    (∃ pay, handle_plot_file st pil sid p =
        (markSent st r p, [Event.plotImage p.base pay])) ∨
    ((handle_plot_file st pil sid p).1 = st ∧
      ∀ b pay, Event.plotImage b pay ∉ (handle_plot_file st pil sid p).2) := by
  unfold handle_plot_file
  simp only [hTab]
  cases hf : alookup st.os.files p with
  | none =>
    right
    refine ⟨rfl, fun b pay => ?_⟩
    simp
  | some c =>
    cases pil with
    | true =>
      cases c with
      | image im => exact Or.inl ⟨encodePNG (plotResize im), rfl⟩
      | text sc =>
        right
        refine ⟨rfl, fun b pay => ?_⟩
        simp
    | false => exact Or.inl ⟨encodeRaw c, rfl⟩

/-- A missing file produces the artifact-error event and changes
nothing. -/
theorem handle_plot_file_missing (st : ServerState) (pil : Bool) (sid : String) (r : Nat)
    (p : FPath) (hTab : alookup st.table sid = some r)
    (hf : alookup st.os.files p = none) :
    handle_plot_file st pil sid p =
      (st, [Event.sessionError ("Plot file not found: " ++ pathStr p)]) := by
  unfold handle_plot_file
  simp only [hTab, hf]

theorem markSent_table (st : ServerState) (r : Nat) (p : FPath) :
    (markSent st r p).table = st.table := rfl

/-- Suffixes of the same list with the same length coincide. -/
theorem suffix_eq_of_length {l1 l2 l : List Char} (h1 : l1 <:+ l) (h2 : l2 <:+ l)
    (hlen : l1.length = l2.length) : l1 = l2 := by
  obtain ⟨t1, e1⟩ := h1
  obtain ⟨t2, e2⟩ := h2
  exact (List.append_inj' (e1.trans e2.symm) hlen).2

theorem globMatch_suffix {b : String} {ext : List Char}
    (h : globMatch b ext = true) : ext <:+ b.toList := by
  simp only [globMatch, Bool.and_eq_true, decide_eq_true_eq] at h
  exact h.2

theorem globMatch_png_jpg {b : String} (h1 : globMatch b extPng = true)
    (h2 : globMatch b extJpg = true) : False := by
  have he : extPng = extJpg :=
    suffix_eq_of_length (globMatch_suffix h1) (globMatch_suffix h2) (by decide)
  exact absurd he (by decide)

theorem globMatch_png_jpeg {b : String} (h1 : globMatch b extPng = true)
    (h2 : globMatch b extJpeg = true) : False := by
  have s2 : (['j', 'p', 'e', 'g'] : List Char) <:+ b.toList :=
    List.IsSuffix.trans ⟨['.'], rfl⟩ (globMatch_suffix h2)
  have he : extPng = ['j', 'p', 'e', 'g'] :=
    suffix_eq_of_length (globMatch_suffix h1) s2 (by decide)
  exact absurd he (by decide)

theorem globMatch_jpg_jpeg {b : String} (h1 : globMatch b extJpg = true)
    (h2 : globMatch b extJpeg = true) : False := by
  have s2 : (['j', 'p', 'e', 'g'] : List Char) <:+ b.toList :=
    List.IsSuffix.trans ⟨['.'], rfl⟩ (globMatch_suffix h2)
  have he : extJpg = ['j', 'p', 'e', 'g'] :=
    suffix_eq_of_length (globMatch_suffix h1) s2 (by decide)
  exact absurd he (by decide)

theorem mem_globPat {os : OS} {d : String} {ext : List Char} {p : FPath}
    (h : p ∈ globPat os d ext) :
    p ∈ os.files.map Prod.fst ∧ p.dir = d ∧ globMatch p.base ext = true := by
  simp only [globPat, List.mem_filter, Bool.and_eq_true, decide_eq_true_eq] at h
  exact ⟨h.1, h.2.1, h.2.2⟩

theorem mem_globImages_dir {os : OS} {d : String} {p : FPath}
    (h : p ∈ globImages os d) : p.dir = d := by
  simp only [globImages, List.mem_append] at h
  rcases h with (h | h) | h
  · exact (mem_globPat h).2.1
  · exact (mem_globPat h).2.1
  · exact (mem_globPat h).2.1

theorem globImages_nodup (os : OS) (d : String)
    (hnd : (os.files.map Prod.fst).Nodup) : (globImages os d).Nodup := by
  have h1 : (globPat os d extPng).Nodup := hnd.filter _
  have h2 : (globPat os d extJpg).Nodup := hnd.filter _
  have h3 : (globPat os d extJpeg).Nodup := hnd.filter _
  have d23 : (globPat os d extJpg).Disjoint (globPat os d extJpeg) := by
    intro a ha hb
    exact globMatch_jpg_jpeg (mem_globPat ha).2.2 (mem_globPat hb).2.2
  have d123 : (globPat os d extPng).Disjoint
      (globPat os d extJpg ++ globPat os d extJpeg) := by
    intro a ha hb
    rcases List.mem_append.mp hb with hb | hb
    · exact globMatch_png_jpg (mem_globPat ha).2.2 (mem_globPat hb).2.2
    · exact globMatch_png_jpeg (mem_globPat ha).2.2 (mem_globPat hb).2.2
  have : (globPat os d extPng ++ (globPat os d extJpg ++ globPat os d extJpeg)).Nodup := by
    rw [List.nodup_append]
    exact ⟨h1, List.nodup_append.mpr ⟨h2, h3, d23⟩, d123⟩
  simpa [globImages, List.append_assoc] using this

theorem globImages_base_nodup (os : OS) (d : String)
    (hnd : (os.files.map Prod.fst).Nodup) :
    ((globImages os d).map FPath.base).Nodup := by
  refine List.Nodup.map_on ?_ (globImages_nodup os d hnd)
  intro x hx y hy hxy
  have hdx := mem_globImages_dir hx
  have hdy := mem_globImages_dir hy
  cases x
  cases y
  simp only at hdx hdy hxy
  simp [hdx, hdy, hxy]

/-- A path already in `sent_images` (uniquely identified by its basename
among the scanned paths) contributes no artifact event to the scan. -/
theorem scanPaths_skip (pil : Bool) (sid : String) (r : Nat) (L : List FPath) :
    ∀ st : ServerState, alookup st.table sid = some r →
      ∀ p, p ∈ (heapGetD st.heap r).sent_images →
        (∀ q, q ∈ L → q.base = p.base → q = p) →
        ∀ pay, Event.plotImage p.base pay ∉ (scanPaths pil sid r st L).2 := by
  induction L with
  | nil =>
    intro st hTab p hp huniq pay
    simp [scanPaths]
  | cons q rest ih =>
    intro st hTab p hp huniq pay
    simp only [scanPaths]
    split
    · exact ih st hTab p hp
        (fun q' hq' hb => huniq q' (List.mem_cons_of_mem q hq') hb) pay
    · rename_i hskip
      have hqp : q ≠ p := fun he => hskip (he ▸ hp)
      have hqb : q.base ≠ p.base :=
        fun he => hqp (huniq q (List.mem_cons_self q rest) he)
      have hTab1 : alookup (handle_plot_file st pil sid q).1.table sid = some r := by
        rw [(handle_plot_file_pres st pil sid q).1]; exact hTab
      intro hmem
      rw [List.mem_append] at hmem
      rcases hmem with hmem | hmem
      · rcases handle_plot_file_shape st pil sid r q hTab with ⟨pay2, heq⟩ | ⟨_, hno⟩
        · rw [heq] at hmem
          simp only [List.mem_singleton, Event.plotImage.injEq] at hmem
          exact hqb hmem.1.symm
        · exact hno p.base pay hmem
      · have hp1 : p ∈ (heapGetD (handle_plot_file st pil sid q).1.heap r).sent_images :=
          (handle_plot_file_heap st pil sid r q hTab).2.2 p hp
        exact ih (handle_plot_file st pil sid q).1 hTab1 p hp1
          (fun q' hq' hb => huniq q' (List.mem_cons_of_mem q hq') hb) pay hmem

/-- Each scan emits at most one artifact event per basename; an emitted
basename's path is recorded in `sent_images` of the resulting state; and
every artifact event's basename comes from a scanned path. -/
theorem scanPaths_count (pil : Bool) (sid : String) (r : Nat) (L : List FPath) :
    ∀ st : ServerState, alookup st.table sid = some r →
      (L.map FPath.base).Nodup →
      (∀ b, List.countP (isPlotFor b) (scanPaths pil sid r st L).2 ≤ 1) ∧
      (∀ b, 1 ≤ List.countP (isPlotFor b) (scanPaths pil sid r st L).2 →
        ∃ p, p ∈ L ∧ p.base = b ∧
          p ∈ (heapGetD (scanPaths pil sid r st L).1.heap r).sent_images) ∧
      (∀ b pay, Event.plotImage b pay ∈ (scanPaths pil sid r st L).2 →
        ∃ q, q ∈ L ∧ q.base = b) := by
  induction L with
  | nil =>
    intro st hTab hnd
    refine ⟨fun b => by simp [scanPaths], fun b hb => ?_, fun b pay hmem => ?_⟩
    · simp [scanPaths] at hb
    · simp [scanPaths] at hmem
  | cons p rest ih =>
    intro st hTab hnd
    have hnd2 : (rest.map FPath.base).Nodup := by
      rw [List.map_cons, List.nodup_cons] at hnd
      exact hnd.2
    have hpb : p.base ∉ rest.map FPath.base := by
      rw [List.map_cons, List.nodup_cons] at hnd
      exact hnd.1
    simp only [scanPaths]
    split
    · obtain ⟨ha, hb, hc⟩ := ih st hTab hnd2
      refine ⟨ha, fun b hcount => ?_, fun b pay hmem => ?_⟩
      · obtain ⟨q, hq, hqb, hqs⟩ := hb b hcount
        exact ⟨q, List.mem_cons_of_mem p hq, hqb, hqs⟩
      · obtain ⟨q, hq, hqb⟩ := hc b pay hmem
        exact ⟨q, List.mem_cons_of_mem p hq, hqb⟩
    · rename_i hskip
      have hTab1 : alookup (handle_plot_file st pil sid p).1.table sid = some r := by
        rw [(handle_plot_file_pres st pil sid p).1]; exact hTab
      obtain ⟨ha, hb, hc⟩ := ih (handle_plot_file st pil sid p).1 hTab1 hnd2
      have hRzero : ∀ b, p.base = b →
          List.countP (isPlotFor b)
            (scanPaths pil sid r (handle_plot_file st pil sid p).1 rest).2 = 0 := by
        intro b hbeq
        rw [List.countP_eq_zero]
        intro e hmem hpe
        obtain ⟨pay2, rfl⟩ := isPlotFor_eq hpe
        obtain ⟨q, hq, hqb⟩ := hc b pay2 hmem
        exact hpb (hbeq ▸ hqb ▸ List.mem_map_of_mem FPath.base hq)
      rcases handle_plot_file_shape st pil sid r p hTab with ⟨pay, heq⟩ | ⟨hst, hno⟩
      · have hHzero : ∀ b, p.base ≠ b →
            List.countP (isPlotFor b) (handle_plot_file st pil sid p).2 = 0 := by
          intro b hbne
          rw [heq, List.countP_eq_zero]
          intro e hmem hpe
          obtain ⟨pay2, rfl⟩ := isPlotFor_eq hpe
          simp only [List.mem_singleton, Event.plotImage.injEq] at hmem
          exact hbne hmem.1.symm
        have hHone : ∀ b, p.base = b →
            List.countP (isPlotFor b) (handle_plot_file st pil sid p).2 = 1 := by
          intro b hbeq
          rw [heq]
          simp [List.countP_cons, isPlotFor, hbeq]
        have hsent : p ∈ (heapGetD (scanPaths pil sid r
            (handle_plot_file st pil sid p).1 rest).1.heap r).sent_images := by
          apply (scanPaths_heap pil sid r rest (handle_plot_file st pil sid p).1 hTab1).2.2
          rw [heq, markSent_heapGetD]
          exact mem_sinsert_self p (heapGetD st.heap r).sent_images
        refine ⟨fun b => ?_, fun b hcount => ?_, fun b pay2 hmem => ?_⟩
        · rw [List.countP_append]
          by_cases hbeq : p.base = b
          · rw [hHone b hbeq, hRzero b hbeq]
          · rw [hHzero b hbeq]
            simpa using ha b
        · by_cases hbeq : p.base = b
          · exact ⟨p, List.mem_cons_self p rest, hbeq, hsent⟩
          · rw [List.countP_append, hHzero b hbeq] at hcount
            obtain ⟨q, hq, hqb, hqs⟩ := hb b (by simpa using hcount)
            exact ⟨q, List.mem_cons_of_mem p hq, hqb, hqs⟩
        · rw [List.mem_append] at hmem
          rcases hmem with hmem | hmem
          · rw [heq] at hmem
            simp only [List.mem_singleton, Event.plotImage.injEq] at hmem
            exact ⟨p, List.mem_cons_self p rest, hmem.1.symm⟩
          · obtain ⟨q, hq, hqb⟩ := hc b pay2 hmem
            exact ⟨q, List.mem_cons_of_mem p hq, hqb⟩
      · have hHzero : ∀ b,
            List.countP (isPlotFor b) (handle_plot_file st pil sid p).2 = 0 := by
          intro b
          rw [List.countP_eq_zero]
          intro e hmem hpe
          obtain ⟨pay2, rfl⟩ := isPlotFor_eq hpe
          exact hno b pay2 hmem
        refine ⟨fun b => ?_, fun b hcount => ?_, fun b pay2 hmem => ?_⟩
        · rw [List.countP_append, hHzero b]
          simpa using ha b
        · rw [List.countP_append, hHzero b] at hcount
          obtain ⟨q, hq, hqb, hqs⟩ := hb b (by simpa using hcount)
          exact ⟨q, List.mem_cons_of_mem p hq, hqb, hqs⟩
        · rw [List.mem_append] at hmem
          rcases hmem with hmem | hmem
          · exact absurd hmem (hno b pay2)
          · obtain ⟨q, hq, hqb⟩ := hc b pay2 hmem
            exact ⟨q, List.mem_cons_of_mem p hq, hqb⟩

theorem fpath_eq_of_dir_base {q p : FPath} (hd : q.dir = p.dir) (hb : q.base = p.base) :
    q = p := by
  cases q
  cases p
  simp only at hd hb
  simp [hd, hb]

/-- Claim C7: per session, each artifact path is transmitted at most once
no matter how many times the scan runs.  A path whose file no longer
exists yields the artifact-error event and is not marked sent; a path
already in the sent set is skipped by the scan (no artifact event with its
basename is emitted); and across two consecutive scans every basename is
carried by at most one artifact event — a path is added to the sent set
exactly by the call that emits its event, so the second scan skips it. -/
theorem artifact_sent_at_most_once (st : ServerState) (pil : Bool) (sid : String)
    (r : Nat) (s : Session) (d : String)
    (hTab : alookup st.table sid = some r)
    (hHeap : alookup st.heap r = some s)
    (hdir : s.temp_dir = some d)
    (hnodup : (st.os.files.map Prod.fst).Nodup) :
    (∀ p, alookup st.os.files p = none →
      handle_plot_file st pil sid p =
        (st, [Event.sessionError ("Plot file not found: " ++ pathStr p)])) ∧
    (∀ p, p ∈ s.sent_images → p.dir = d →
      ∀ pay, Event.plotImage p.base pay ∉ (scan_for_new_images st pil sid).2) ∧
    (∀ b, List.countP (isPlotFor b)
        ((scan_for_new_images st pil sid).2 ++
          (scan_for_new_images (scan_for_new_images st pil sid).1 pil sid).2) ≤ 1) := by
  have hs : heapGetD st.heap r = s := by simp [heapGetD, hHeap]
  have hscanA : scan_for_new_images st pil sid = scanDir st pil sid r := by
    unfold scan_for_new_images
    simp only [hTab]
  by_cases he : d = ""
  · -- falsy workspace name: the scan is a silent no-op, everything trivial
    have hscanB : scanDir st pil sid r = (st, []) := by
      unfold scanDir
      simp only [hs, hdir]
      rw [if_pos he]
    refine ⟨fun p hf => handle_plot_file_missing st pil sid r p hTab hf,
      fun p hp hpd pay => ?_, fun b => ?_⟩
    · rw [hscanA, hscanB]
      simp
    · rw [hscanA, hscanB, hscanA, hscanB]
      simp
  · by_cases hm : d ∈ st.os.dirs
    · -- the real scan
      have hscanB : scanDir st pil sid r =
          scanPaths pil sid r st (globImages st.os d) := by
        unfold scanDir
        simp only [hs, hdir]
        rw [if_neg he, if_pos hm]
      have hbase : ((globImages st.os d).map FPath.base).Nodup :=
        globImages_base_nodup st.os d hnodup
      refine ⟨fun p hf => handle_plot_file_missing st pil sid r p hTab hf,
        fun p hp hpd pay => ?_, fun b => ?_⟩
      · rw [hscanA, hscanB]
        refine scanPaths_skip pil sid r (globImages st.os d) st hTab p ?_ ?_ pay
        · rw [hs]; exact hp
        · intro q hq hb
          exact fpath_eq_of_dir_base ((mem_globImages_dir hq).trans hpd.symm) hb
      · rw [hscanA, hscanB]
        have hTab1 : alookup (scanPaths pil sid r st (globImages st.os d)).1.table sid =
            some r := by
          rw [(scanPaths_pres pil sid r (globImages st.os d) st).1]; exact hTab
        have hos1 : (scanPaths pil sid r st (globImages st.os d)).1.os = st.os :=
          (scanPaths_pres pil sid r (globImages st.os d) st).2.1
        have htd1 : (heapGetD (scanPaths pil sid r st (globImages st.os d)).1.heap r).temp_dir
            = some d := by
          rw [(scanPaths_heap pil sid r (globImages st.os d) st hTab).2.1, hs, hdir]
        have hscanC : scan_for_new_images
            (scanPaths pil sid r st (globImages st.os d)).1 pil sid =
            scanPaths pil sid r (scanPaths pil sid r st (globImages st.os d)).1
              (globImages st.os d) := by
          unfold scan_for_new_images
          simp only [hTab1]
          unfold scanDir
          simp only [htd1]
          rw [if_neg he, hos1, if_pos hm]
        rw [hscanC, List.countP_append]
        obtain ⟨ha1, hb1, _⟩ :=
          scanPaths_count pil sid r (globImages st.os d) st hTab hbase
        obtain ⟨ha2, _, _⟩ := scanPaths_count pil sid r (globImages st.os d)
          (scanPaths pil sid r st (globImages st.os d)).1 hTab1 hbase
        by_cases hc1 : List.countP (isPlotFor b)
            (scanPaths pil sid r st (globImages st.os d)).2 = 0
        · rw [hc1]
          simpa using ha2 b
        · obtain ⟨p, hpL, hpb, hps⟩ := hb1 b (Nat.one_le_iff_ne_zero.mpr hc1)
          have huniq : ∀ q, q ∈ globImages st.os d → q.base = p.base → q = p := by
            intro q hq hb2
            exact fpath_eq_of_dir_base
              ((mem_globImages_dir hq).trans (mem_globImages_dir hpL).symm) hb2
          have hskip := scanPaths_skip pil sid r (globImages st.os d)
            (scanPaths pil sid r st (globImages st.os d)).1 hTab1 p hps huniq
          have hc2 : List.countP (isPlotFor b)
              (scanPaths pil sid r (scanPaths pil sid r st (globImages st.os d)).1
                (globImages st.os d)).2 = 0 := by
            rw [List.countP_eq_zero]
            intro e hmem hpe
            obtain ⟨pay, rfl⟩ := isPlotFor_eq hpe
            rw [← hpb] at hmem
            exact hskip pay hmem
          rw [hc2]
          have := ha1 b
          omega
    · -- the workspace is gone: silent no-op
      have hscanB : scanDir st pil sid r = (st, []) := by
        unfold scanDir
        simp only [hs, hdir]
        rw [if_neg he, if_neg hm]
      refine ⟨fun p hf => handle_plot_file_missing st pil sid r p hTab hf,
        fun p hp hpd pay => ?_, fun b => ?_⟩
      · rw [hscanA, hscanB]
        simp
      · rw [hscanA, hscanB, hscanA, hscanB]
        simp

theorem artifact_sent_at_most_once_witness :
    handle_plot_file stLive true "s1" ⟨"user_session_0", "ghost.png"⟩ =
      (stLive, [Event.sessionError "Plot file not found: user_session_0/ghost.png"]) ∧
    List.countP (isPlotFor "plot.png")
      ((scan_for_new_images stLive true "s1").2 ++
        (scan_for_new_images (scan_for_new_images stLive true "s1").1 true "s1").2) ≤ 1 := by
  obtain ⟨h1, _, h3⟩ := artifact_sent_at_most_once stLive true "s1" 0 sampleSession
    "user_session_0" (by decide) (by decide) (by decide) (by decide)
  exact ⟨h1 ⟨"user_session_0", "ghost.png"⟩ (by decide), h3 "plot.png"⟩

end LCE
